import Mathlib

/-!
Shallow embedding of the drug-interaction engine of `src/interactions.py`
(plus the data-access collaborator described in the spec), together with
proofs about the claims on normalization, scoring, severity
classification, caching and batch evaluation.
-/

set_option maxRecDepth 8000

namespace Kurs

/-! ### Character-level models of the Python string primitives used by `normalize` -/

/-- Lower-casing of a single character as Python `str.lower` acts on the
Latin and Cyrillic repertoire used by the program (`A`-`Z`, `А`-`Я`, `Ё`). -/
def pyLowerChar (c : Char) : Char :=
  if 65 ≤ c.toNat ∧ c.toNat ≤ 90 then Char.ofNat (c.toNat + 32)
  else if 1040 ≤ c.toNat ∧ c.toNat ≤ 1071 then Char.ofNat (c.toNat + 32)
  else if c.toNat = 1025 then Char.ofNat 1105
  else c

/-- Python `str.strip()` whitespace set (space, tab, LF, CR, VT, FF). -/
def pyIsSpace (c : Char) : Bool :=
  decide (c.toNat = 32 ∨ c.toNat = 9 ∨ c.toNat = 10 ∨ c.toNat = 13 ∨
          c.toNat = 11 ∨ c.toNat = 12)

/-- Membership in the character class `[a-z0-9а-яё -]` of the regex in
`normalize` (`src/interactions.py` line 79). -/
def allowedChar (c : Char) : Bool :=
  decide ((97 ≤ c.toNat ∧ c.toNat ≤ 122) ∨ (48 ≤ c.toNat ∧ c.toNat ≤ 57) ∨
          (1072 ≤ c.toNat ∧ c.toNat ≤ 1103) ∨ c.toNat = 1105 ∨
          c.toNat = 32 ∨ c.toNat = 45)

/-- Drop the trailing run of characters satisfying `p` (the right half of
Python `str.strip`). -/
def dropTrail (p : Char → Bool) : List Char → List Char
  | [] => []
  | c :: rest =>
    if (dropTrail p rest).isEmpty && p c then [] else c :: dropTrail p rest

/-- Python `str.strip()` on a character list. -/
def stripChars (l : List Char) : List Char :=
  dropTrail pyIsSpace (l.dropWhile pyIsSpace)

/-- The substitution `re.sub(r"[^a-z0-9а-яё -]", " ", text)`. -/
def cleanChars (l : List Char) : List Char :=
  l.map (fun c => if allowedChar c then c else ' ')

/-- The substitution `re.sub(r"\s+", " ", text)` on text whose only
whitespace character is a space (which is the case after `cleanChars`,
since every other whitespace character is outside the allowed class and
has already been replaced by a space). -/
def squeeze : List Char → List Char
  | [] => []
  | [a] => [a]
  | a :: b :: rest =>
    if a = ' ' ∧ b = ' ' then squeeze (b :: rest) else a :: squeeze (b :: rest)

/-- Python `str.strip()` on strings. -/
def stripS (s : String) : String := String.mk (stripChars s.data)

/-- Python `str.lower()` on strings. -/
def lowerS (s : String) : String := String.mk (s.data.map pyLowerChar)

/-! ### Synonym tables (`src/interactions.py` lines 17-62, after the `update` calls) -/

/-- The `TARGET_SYNONYMS` dict: the literal of lines 17-22 merged with the
`update` of lines 46-55 (all updated keys are new, so list append with
first-match lookup models the dict exactly). -/
def TARGET_SYNONYMS : List (String × String) :=
  [("ltcc", "l-type calcium channel"),
   ("l-vscc", "l-type calcium channel"),
   ("кальциевый канал l-типа", "l-type calcium channel"),
   ("сердечный кальциевый канал", "l-type calcium channel"),
   ("cox1", "COX1"),
   ("cox2", "COX2"),
   ("cox3", "COX3"),
   ("sert", "SERT"),
   ("at1-рецептор", "AT1 receptor"),
   ("na-k-2cl котранспортер", "Na-K-2Cl cotransporter"),
   ("na-cl котранспортер", "Na-Cl cotransporter"),
   ("h+/k+-атфаза", "H+/K+-ATPase")]

/-- The `EFFECT_SYNONYMS` dict: the literal of lines 24-34 merged with the
`update` of lines 57-62 (updated keys either are new or rebind a key to
the same value, so first-match lookup on the appended list models the
dict exactly). -/
def EFFECT_SYNONYMS : List (String × String) :=
  [("гипотензия", "низкое давление"),
   ("ортостатическая гипотензия", "низкое давление"),
   ("low blood pressure", "низкое давление"),
   ("гипонатриемия", "низкий натрий"),
   ("низкий уровень натрия", "низкий натрий"),
   ("жк-кровотечение", "желудочно-кишечное кровотечение"),
   ("ulcer", "желудочно-кишечкое кровотечение"),
   ("серотониновый синдром", "серотониновый синдром")]

/-- First-match association lookup (dict indexing). -/
def lookupSyn : List (String × String) → String → Option String
  | [], _ => none
  | (k, v) :: rest, t => if t = k then some v else lookupSyn rest t

/-- Generic-normalization part of `normalize`: remove characters outside
the allowed class, collapse whitespace runs, strip (lines 79-81). -/
def regexClean (l : List Char) : List Char :=
  stripChars (squeeze (cleanChars l))

/-- The `normalize` function of `src/interactions.py` lines 65-81. -/
def normalize (s : String) : String :=
  if s = "" then ""
  else
    let t := lowerS (stripS s)
    if t = "" then ""
    else
      match lookupSyn TARGET_SYNONYMS t with
      | some v => v
      | none =>
        match lookupSyn EFFECT_SYNONYMS t with
        | some v => v
        | none => String.mk (regexClean t.data)

example : normalize "LTCC" = "l-type calcium channel" := by rfl
example : normalize " Hello,  World! " = "hello world" := by rfl
example : normalize "at1-рецептор" = "AT1 receptor" := by rfl
example : normalize "AT1 receptor" = "at1 receptor" := by rfl
example : normalize "Гипотензия" = "низкое давление" := by rfl

/-! ### Substring testing (the Python `in` operator on strings) -/

/-- Whether the first list is an initial segment of the second. -/
def leadsWith : List Char → List Char → Bool
  | [], _ => true
  | _ :: _, [] => false
  | a :: as, b :: bs => a == b && leadsWith as bs

/-- Whether `needle` occurs contiguously inside the second list. -/
def hasSub (needle : List Char) : List Char → Bool
  | [] => needle.isEmpty
  | hay@(_ :: rest) => leadsWith needle hay || hasSub needle rest

/-- The Python expression `needle in hay` on strings. -/
def strIn (needle hay : String) : Bool := hasSub needle.data hay.data

/-- Upper-casing of a single character as Python `str.upper` acts on the
Latin and Cyrillic repertoire used by the program. -/
def pyUpperChar (c : Char) : Char :=
  if 97 ≤ c.toNat ∧ c.toNat ≤ 122 then Char.ofNat (c.toNat - 32)
  else if 1072 ≤ c.toNat ∧ c.toNat ≤ 1103 then Char.ofNat (c.toNat - 32)
  else if c.toNat = 1105 then Char.ofNat 1025
  else c

/-- Python `str.upper()` on strings. -/
def upperS (s : String) : String := String.mk (s.data.map pyUpperChar)

/-! ### Data model -/

/-- Modelled from the spec: `difflib.get_close_matches(word, candidates,
n, cutoff)` is an external library routine (the similarity-ratio
algorithm itself is not part of this repository), so the engine is
parameterized by an abstract close-match function returning a sublist of
the candidate keys; every universal theorem below holds for every such
function, and concrete runs use the function returning no matches, on
stores where the fuzzy fallback is never consulted or genuinely has no
close candidates. -/
def Matcher : Type := String → List String → Nat → ℚ → List String

/-- Modelled from the spec: a target record as returned by the
data-access collaborator (`get_pharmacology`, spec section 3/6): target
name, effect role, potency; `get_drug_pharmacology` itself is not under
`src/`. Optional role models a NULL column (`t.get('effect_type') or ''`). -/
structure TargetRec where
  target_name : String
  effect_type : Option String
  potency : ℚ
deriving DecidableEq

/-- Modelled from the spec: a metabolism record (enzyme name, role,
rate); `get_drug_pharmacology` itself is not under `src/`. -/
structure MetabRec where
  enzyme_name : String
  role : Option String
  rate : ℚ
deriving DecidableEq

/-- Modelled from the spec: an effect-profile record (effect name,
severity level); `get_drug_pharmacology` itself is not under `src/`. -/
structure EffectRec where
  effect_name : String
  level : Option Int
deriving DecidableEq

/-- A drug row as used by the engine (only the display name is read). -/
structure Drug where
  name : String
deriving DecidableEq

/-- The three pharmacology record lists of one drug. -/
structure Pharm where
  targets : List TargetRec
  metabolism : List MetabRec
  effects : List EffectRec
deriving DecidableEq

/-- The dictionary built by `InteractionEngine.load_drug_data`. -/
structure DrugData where
  drug : Drug
  targets : List TargetRec
  metabolism : List MetabRec
  effects : List EffectRec
deriving DecidableEq

/-- Modelled from the spec: the non-key columns of one interaction-cache
row (`CachedInteraction`, spec section 3): stored score, level, joined
mechanism text, notes and timestamp (the cache table schema is not under
`src/`; the field names follow the reads in `analyze_interaction` lines
163-174). The key columns `drug_a_id`/`drug_b_id` are the canonical pair
under which the row is stored, so a row fetched for a pair carries that
pair as its ids. -/
structure CachePayload where
  score : ℚ
  level : String
  mechanisms : Option String
  notes : Option String
  timestamp : Option String
deriving DecidableEq

/-- Modelled from the spec: the data-access collaborator (spec section
6): drug lookup by id, pharmacology per id, and the interaction cache
keyed by the canonical unordered pair; `database.py` implements only
`get_drug_by_id` under `src/`. -/
structure Store where
  drugs : Int → Option Drug
  pharm : Int → Pharm
  cache : Int → Int → Option CachePayload

/-- Explicit minimum of two ids (kept reducible for kernel evaluation). -/
def minI (a b : Int) : Int := if a ≤ b then a else b

/-- Explicit maximum of two ids. -/
def maxI (a b : Int) : Int := if a ≤ b then b else a

/-- Modelled from the spec: `get_cached_interaction(a,b)` returns the
row stored under the canonical pair `(min id, max id)` or absent (spec
sections 3 and 6); the returned row's `drug_a_id`/`drug_b_id` columns are
that canonical pair. -/
def getCachedInteraction (st : Store) (a b : Int) : Option CachePayload :=
  st.cache (minI a b) (maxI a b)

/-- Modelled from the spec: `cache_interaction_result` upserts the single
row of the canonical pair (spec section 3: exactly one row per unordered
pair, a fresh computation always overwrites). -/
def cacheInteractionResult (st : Store) (a b : Int) (score : ℚ) (level : String)
    (mech notes : Option String) (now : String) : Store :=
  { st with cache := fun x y =>
      if x = minI a b ∧ y = maxI a b then
        some ⟨score, level, mech, notes, some now⟩
      else st.cache x y }

/-- `InteractionEngine.load_drug_data` (lines 98-108): raises when the
drug id is absent, otherwise packages the drug with its pharmacology. -/
def loadDrugData (st : Store) (i : Int) : Except String DrugData :=
  match st.drugs i with
  | none => .error ("Drug id " ++ toString i ++ " not found")
  | some d => .ok ⟨d, (st.pharm i).targets, (st.pharm i).metabolism, (st.pharm i).effects⟩

/-! ### Shared-record detection (lines 110-159) -/

/-- Value of a Python dict comprehension `{key(r): r for r in l}` at key
`n`: the last record of `l` whose key is `n`. -/
def lastWithKey (key : α → String) (l : List α) (n : String) : Option α :=
  l.reverse.find? (fun r => key r == n)

/-- Key list of a Python dict comprehension: first-occurrence order. -/
def firstDedup : List String → List String
  | [] => []
  | x :: xs => x :: (firstDedup xs).filter (fun y => y ≠ x)

/-- One left record's pairs in the shared walk: skip an empty normalized
key, take the exact dict match when present, otherwise pair with the
dict entry of each close-match key. -/
def sharedPairOne (key : α → String) (fz : Matcher) (n : Nat) (cutoff : ℚ)
    (lb : List α) (ra : α) : List (α × α) :=
  if key ra = "" then []
  else
    match lastWithKey key lb (key ra) with
    | some rb => [(ra, rb)]
    | none =>
      (fz (key ra) (firstDedup (lb.map key)) n cutoff).filterMap
        (fun m => (lastWithKey key lb m).map (fun rb => (ra, rb)))

/-- Common skeleton of `_shared_enzymes` / `_shared_targets` /
`_effects_overlap`: walk the left records in order, collecting each
record's pairs. -/
def sharedPairs (key : α → String) (fz : Matcher) (n : Nat) (cutoff : ℚ)
    (la lb : List α) : List (α × α) :=
  (la.map (sharedPairOne key fz n cutoff lb)).flatten

/-- Normalized enzyme key of a metabolism record. -/
def enzKey (m : MetabRec) : String := normalize m.enzyme_name

/-- Normalized target key of a target record. -/
def targetKey (t : TargetRec) : String := normalize t.target_name

/-- Normalized effect key of an effect record. -/
def effectKey (e : EffectRec) : String := normalize e.effect_name

/-- `InteractionEngine._shared_enzymes` (lines 110-125): exact match
first, fuzzy fallback with `n=1`, `cutoff=0.70`. -/
def sharedEnzymes (fz : Matcher) (la lb : List MetabRec) : List (MetabRec × MetabRec) :=
  sharedPairs enzKey fz 1 (70/100) la lb

/-- `InteractionEngine._shared_targets` (lines 127-143): exact match
first, fuzzy fallback with `n=2`, `cutoff=0.65`. -/
def sharedTargets (fz : Matcher) (la lb : List TargetRec) : List (TargetRec × TargetRec) :=
  sharedPairs targetKey fz 2 (65/100) la lb

/-- `InteractionEngine._effects_overlap` (lines 145-159): exact match
first, fuzzy fallback with `n=2`, `cutoff=0.75`. -/
def effectsOverlap (fz : Matcher) (la lb : List EffectRec) : List (EffectRec × EffectRec) :=
  sharedPairs effectKey fz 2 (75/100) la lb

/-! ### Per-pair contributions of the three detector passes (lines 186-239) -/

/-- `(m.get('role') or '').lower()`. -/
def roleLower (r : Option String) : String := lowerS (r.getD "")

/-- Metabolic score contribution of one shared-enzyme pair (lines
187-205): 0.50 for inhibitor+substrate either way, 0.25 for
inducer+substrate either way, else 0.15. -/
def metabWeight (ra rb : MetabRec) : ℚ :=
  let roleA := roleLower ra.role
  let roleB := roleLower rb.role
  if roleA = "ингибитор" ∧ roleB = "субстрат" then 1/2
  else if roleB = "ингибитор" ∧ roleA = "субстрат" then 1/2
  else if roleA = "индуктор" ∧ roleB = "субстрат" then 1/4
  else if roleB = "индуктор" ∧ roleA = "субстрат" then 1/4
  else 3/20

/-- Mechanism text of one shared-enzyme pair (lines 187-205). -/
def metabMech (ra rb : MetabRec) : String :=
  let roleA := roleLower ra.role
  let roleB := roleLower rb.role
  if roleA = "ингибитор" ∧ roleB = "субстрат" then
    ra.enzyme_name ++ ": ингибирование (A ингибирует B)"
  else if roleB = "ингибитор" ∧ roleA = "субстрат" then
    ra.enzyme_name ++ ": ингибирование (B ингибирует A)"
  else if roleA = "индуктор" ∧ roleB = "субстрат" then
    ra.enzyme_name ++ ": индукция (A индуцирует B)"
  else if roleB = "индуктор" ∧ roleA = "субстрат" then
    ra.enzyme_name ++ ": индукция (B индуцирует A)"
  else ra.enzyme_name ++ ": оба препарата метаболизируются этим ферментом"

/-- `(t.get('effect_type') or '').lower()`. -/
def effTypeLower (t : TargetRec) : String := lowerS (t.effect_type.getD "")

/-- Dynamical score contribution of one shared-target pair (lines
208-229): 0.40 both-inhibitor, 0.35 both-agonist, 0.30 opposing, else
0.10. -/
def targetWeight (ta tb : TargetRec) : ℚ :=
  let ea := effTypeLower ta
  let eb := effTypeLower tb
  if ea = "ингибитор" ∧ eb = "ингибитор" then 2/5
  else if ea = "агонист" ∧ eb = "агонист" then 7/20
  else if ((ea = "агонист" ∨ ea = "активатор") ∧ (eb = "антагонист" ∨ eb = "ингибитор")) ∨
          ((eb = "агонист" ∨ eb = "активатор") ∧ (ea = "антагонист" ∨ ea = "ингибитор")) then 3/10
  else 1/10

/-- Mechanism text of one shared-target pair: the initially appended
generic line is overwritten in every branch (lines 214-229), so the
per-pair net text is the branch text. -/
def targetMech (ta tb : TargetRec) : String :=
  let ea := effTypeLower ta
  let eb := effTypeLower tb
  if ea = "ингибитор" ∧ eb = "ингибитор" then
    ta.target_name ++ ": суммарное ингибирование"
  else if ea = "агонист" ∧ eb = "агонист" then
    ta.target_name ++ ": суммарная активация"
  else if ((ea = "агонист" ∨ ea = "активатор") ∧ (eb = "антагонист" ∨ eb = "ингибитор")) ∨
          ((eb = "агонист" ∨ eb = "активатор") ∧ (ea = "антагонист" ∨ ea = "ингибитор")) then
    ta.target_name ++ ": противоположное действие"
  else ta.target_name ++ ": оба препарата действуют на эту цель"

/-- `int(e.get('level') or 0)`. -/
def effLevel (e : EffectRec) : Int := e.level.getD 0

/-- Toxicity contribution of one shared-effect pair (line 237). -/
def effectWeight (ea eb : EffectRec) : ℚ :=
  ((effLevel ea : ℚ) + (effLevel eb : ℚ)) / 5

/-- Mechanism text of one shared-effect pair (line 239). -/
def effectMech (ea eb : EffectRec) : String :=
  ea.effect_name ++ ": оба препарата могут вызвать этот побочный эффект (уровень " ++
    toString (effLevel ea) ++ "+" ++ toString (effLevel eb) ++ ")"

/-! ### The clinical rule overlay (lines 241-343) -/

/-- SSRI keyword list (line 245). -/
def ssriKeywords : List String :=
  ["сертралин", "флуоксетин", "флувоксамин", "пароксетин", "эсциталопрам", "ssri"]

/-- ACE-inhibitor keyword list (line 246). -/
def aceiKeywords : List String :=
  ["рамиприл", "эналаприл", "лизиноприл", "периндоприл", "каптоприл", "ризиноприл",
   "ace-i", "ace inhibitor"]

/-- Beta-blocker keyword list (line 247). -/
def betaKeywords : List String :=
  ["метопролол", "атенолол", "пропранолол", "бисопролол", "acebutolol"]

/-- NSAID keyword list (line 248). -/
def nsaidKeywords : List String :=
  ["ибупрофен", "диклофенак", "напроксен", "аспирин", "nsaid"]

/-- `_get_target_names` (lines 251-258): normalized names, empty ones
dropped. -/
def targetNames (l : List TargetRec) : List String :=
  (l.map (fun t => normalize t.target_name)).filter (fun n => n ≠ "")

/-- `_get_effect_names` (lines 260-267). -/
def effectNames (l : List EffectRec) : List String :=
  (l.map (fun e => normalize e.effect_name)).filter (fun n => n ≠ "")

/-- `_get_enzymes` (lines 269-277): pairs of normalized enzyme name and
stripped lower-cased role, entries with empty normalized name dropped. -/
def enzymeEntries (l : List MetabRec) : List (String × String) :=
  (l.map (fun m => (normalize m.enzyme_name, lowerS (stripS (m.role.getD "")))))
    |>.filter (fun p => p.1 ≠ "")

/-- Lower-cased display name (`a['drug']['name'].lower()`, line 242). -/
def drugNameL (A : DrugData) : String := lowerS A.drug.name

/-- Shorthand for the normalized target-name list of a loaded drug. -/
def tnames (A : DrugData) : List String := targetNames A.targets

/-- Shorthand for the normalized effect-name list of a loaded drug. -/
def enames (A : DrugData) : List String := effectNames A.effects

/-- Shorthand for the enzyme/role entry list of a loaded drug. -/
def ezent (A : DrugData) : List (String × String) := enzymeEntries A.metabolism

/-- `a_is_ssri` flag (line 287). -/
def isSsri (A : DrugData) : Bool :=
  ssriKeywords.any (fun k => strIn k (drugNameL A)) ||
  (tnames A ++ enames A).any (fun t => strIn "sert" t || strIn "seroton" t)

/-- `a_is_acei` flag (line 289). -/
def isAcei (A : DrugData) : Bool :=
  aceiKeywords.any (fun k => strIn k (drugNameL A)) ||
  (tnames A ++ enames A).any (fun t => strIn "апф" t || strIn "ace" t)

/-- `a_is_beta` flag (line 291): scans target names only. -/
def isBeta (A : DrugData) : Bool :=
  betaKeywords.any (fun k => strIn k (drugNameL A)) ||
  (tnames A).any (fun t => strIn "beta" t || strIn "бета" t)

/-- `a_is_nsaid` flag (line 293). -/
def isNsaid (A : DrugData) : Bool :=
  nsaidKeywords.any (fun k => strIn k (drugNameL A)) ||
  (tnames A ++ enames A).any (fun t => strIn "nsaid" t || strIn "нпвп" t)

/-- Condition of the SSRI + ACE-inhibitor hyponatremia rule (line 297). -/
def ssriAceiCond (A B : DrugData) : Bool :=
  (isSsri A && isAcei B) || (isSsri B && isAcei A)

/-- Condition of the SSRI + beta-blocker bradycardia rule (line 302). -/
def ssriBetaCond (A B : DrugData) : Bool :=
  (isSsri A && isBeta B) || (isSsri B && isBeta A)

/-- Condition of the NSAID + ACE-inhibitor renal rule (line 307). -/
def nsaidAceiCond (A B : DrugData) : Bool :=
  (isNsaid A && isAcei B) || (isNsaid B && isAcei A)

/-- Major-CYP name list (line 312). -/
def majorCyps : List String := ["cyp2d6", "cyp3a4", "cyp2c9", "cyp2c19", "cyp1a2"]

/-- The CYP inhibitor+substrate rule (lines 313-320): for every pair of
enzyme entries and every major CYP whose name occurs in both, and whose
roles form an inhibitor+substrate pair, one (mechanism, comment) entry is
appended and 0.25 is added to the metabolic subscore. -/
def cypAdditions (aEnz bEnz : List (String × String)) : List (String × String) :=
  (aEnz.map (fun er =>
    (bEnz.map (fun br =>
      (majorCyps.filter (fun c =>
        strIn c er.1 && strIn c br.1 &&
        ((er.2 == "ингибитор" && br.2 == "субстрат") ||
         (br.2 == "ингибитор" && er.2 == "субстрат")))).map
        (fun c => ("Shared " ++ upperS c ++ " substrate + inhibitor",
                   "Взаимодействие через " ++ upperS c ++ " (ингибитор + субстрат)")))).flatten)).flatten

/-- Serotonin-marker list (line 323). -/
def serotoninMarkers : List String := ["sert", "seroton", "серотон"]

/-- Condition of the serotonin-syndrome rule (line 324). -/
def serotoninCond (A B : DrugData) : Bool :=
  ((tnames A ++ enames A).any (fun t => serotoninMarkers.any (fun m => strIn m t)) &&
   (tnames B ++ enames B).any (fun t => serotoninMarkers.any (fun m => strIn m t))) ||
  ((enames A).contains "серотониновый синдром" && (enames B).contains "серотониновый синдром")

/-- Aldosterone side of the hyperkalemia rule (line 329): note the
name-keyword test sits inside the generator, so it is only reached when
the target/effect name list is non-empty. -/
def aldoSide (A : DrugData) : Bool :=
  (tnames A ++ enames A).any (fun t => strIn "альдостерон" t || strIn "спиронолактон" (drugNameL A))

/-- ACE/ARB side of the hyperkalemia rule (line 329); `other` is the
opposite drug whose name is scanned for ACE-inhibitor keywords. -/
def aceiArbSide (A other : DrugData) : Bool :=
  (tnames A ++ enames A).any (fun t =>
    strIn "апф" t || strIn "арб" t || aceiKeywords.any (fun k => strIn k (drugNameL other)))

/-- Condition of the hyperkalemia rule (line 329). -/
def hyperkCond (A B : DrugData) : Bool :=
  (aldoSide A && aceiArbSide B B) || (aldoSide B && aceiArbSide A A)

/-- Bleeding-marker list (line 334). -/
def bleedMarkers : List String :=
  ["жк-кровотечение", "желудочно-кишечное кровотечение", "bleeding", "anticoagulant",
   "antiplatelet", "агрегация"]

/-- One drug's side of the bleeding rule (line 335): marker occurs in the
space-joined effect names, or a COX1/aggregation target. -/
def bleedSide (A : DrugData) : Bool :=
  bleedMarkers.any (fun m => strIn m (String.intercalate " " (enames A))) ||
  (tnames A).any (fun t => strIn "cox1" t || strIn "агрегация" t)

/-- Condition of the bleeding rule (line 335). -/
def bleedCond (A B : DrugData) : Bool := bleedSide A && bleedSide B

/-- QT-marker list (line 340). -/
def qtMarkers : List String := ["herg", "ikr", "пролонгация qt", "удлинение qt"]

/-- One drug's side of the QT-prolongation rule (line 341). -/
def qtSide (A : DrugData) : Bool :=
  (tnames A ++ enames A).any (fun t => qtMarkers.any (fun m => strIn m t))

/-- Condition of the QT-prolongation rule (line 341). -/
def qtCond (A B : DrugData) : Bool := qtSide A && qtSide B

/-! ### Aggregation, classification and the result record (lines 345-415) -/

/-- The `WEIGHTS` dict (lines 39-43). -/
def WEIGHTS : List (String × ℚ) :=
  [("metabolic", 35/100), ("dynamical", 25/100), ("toxicity", 15/100)]

/-- First-match association lookup on the weight dict. -/
def lookupW : List (String × ℚ) → String → Option ℚ
  | [], _ => none
  | (k, v) :: rest, t => if t = k then some v else lookupW rest t

/-- `WEIGHTS.get('metabolic', 0.45)` (line 346). -/
def wMetabolic : ℚ := (lookupW WEIGHTS "metabolic").getD (45/100)

/-- `WEIGHTS.get('dynamical', 0.35)` (line 347). -/
def wDynamical : ℚ := (lookupW WEIGHTS "dynamical").getD (35/100)

/-- `WEIGHTS.get('toxicity', 0.2)` (line 348). -/
def wToxicity : ℚ := (lookupW WEIGHTS "toxicity").getD (2/10)

/-- Metabolic subscore: shared-enzyme contributions (lines 187-205) plus
0.25 per CYP-rule firing (line 318). -/
def metabolicScore (fz : Matcher) (A B : DrugData) : ℚ :=
  ((sharedEnzymes fz A.metabolism B.metabolism).map (fun p => metabWeight p.1 p.2)).sum +
  ((cypAdditions (ezent A) (ezent B)).length : ℚ) * (1/4)

/-- Dynamical subscore: shared-target contributions (lines 208-229) plus
0.15 for the SSRI+beta-blocker rule (line 303). -/
def dynamicalScore (fz : Matcher) (A B : DrugData) : ℚ :=
  ((sharedTargets fz A.targets B.targets).map (fun p => targetWeight p.1 p.2)).sum +
  (if ssriBetaCond A B then 15/100 else 0)

/-- Toxicity subscore: shared-effect contributions (line 237) plus the
toxicity-category rule contributions (lines 298, 308, 325, 330, 336, 342). -/
def toxicityScore (fz : Matcher) (A B : DrugData) : ℚ :=
  ((effectsOverlap fz A.effects B.effects).map (fun p => effectWeight p.1 p.2)).sum +
  (if ssriAceiCond A B then 15/100 else 0) +
  (if nsaidAceiCond A B then 1/5 else 0) +
  (if serotoninCond A B then 1/4 else 0) +
  (if hyperkCond A B then 1/5 else 0) +
  (if bleedCond A B then 1/5 else 0) +
  (if qtCond A B then 15/100 else 0)

/-- `raw_score = w1*metabolic + w2*dynamical + w3*toxicity` with the
weights of lines 346-348 read from `WEIGHTS` (all three keys present, so
the `.get` defaults are dead). -/
def rawScore (fz : Matcher) (A B : DrugData) : ℚ :=
  wMetabolic * metabolicScore fz A B + wDynamical * dynamicalScore fz A B +
  wToxicity * toxicityScore fz A B

/-- Python `min(a, b)` on rationals. -/
def pyMin (a b : ℚ) : ℚ := if b < a then b else a

/-- Python `max(a, b)` on rationals. -/
def pyMax (a b : ℚ) : ℚ := if a < b then b else a

/-- `score = max(0.0, min(1.0, raw_score))` (line 351). -/
def clampedScore (fz : Matcher) (A B : DrugData) : ℚ :=
  pyMax 0 (pyMin 1 (rawScore fz A B))

/-- Half-to-even rounding of `x` at 3 decimal places, returning the
numerator over 1000 (the exact-arithmetic reading of Python
`round(score, 3)`). -/
def rhe3 (x : ℚ) : Int :=
  let y := x * 1000
  let f := y.num / y.den
  if y - f < 1/2 then f
  else if (1 : ℚ)/2 < y - f then f + 1
  else if f % 2 = 0 then f else f + 1

/-- `round(score, 3)` in exact arithmetic. -/
def round3 (x : ℚ) : ℚ := (rhe3 x : ℚ) / 1000

/-- Severity classification (lines 384-389): a function of the numeric
score only. -/
def classifyLevel (score : ℚ) : String :=
  if score < 3/10 then "Низкий"
  else if score < 6/10 then "Средний"
  else "Высокий"

/-- Mechanism strings produced by the detectors and the CYP rule, in
program order (enzyme pass, target pass, effect pass, CYP rule). -/
def mechanismsBase (fz : Matcher) (A B : DrugData) : List String :=
  ((sharedEnzymes fz A.metabolism B.metabolism).map (fun p => metabMech p.1 p.2)) ++
  ((sharedTargets fz A.targets B.targets).map (fun p => targetMech p.1 p.2)) ++
  ((effectsOverlap fz A.effects B.effects).map (fun p => effectMech p.1 p.2)) ++
  ((cypAdditions (ezent A) (ezent B)).map Prod.fst)

/-- One drug's record-count lines of the profile fallback block (lines
356-371): one line per non-empty category. -/
def profileLines (A : DrugData) : List String :=
  (if tnames A ≠ [] then [A.drug.name ++ ": " ++ toString (tnames A).length ++ " целей"] else []) ++
  (if ezent A ≠ [] then [A.drug.name ++ ": " ++ toString (ezent A).length ++ " ферментов"] else []) ++
  (if enames A ≠ [] then [A.drug.name ++ ": " ++ toString (enames A).length ++ " известно побочных эффектов"] else [])

/-- The header-plus-count-lines list of the profile fallback. -/
def fallbackMechs (A B : DrugData) : List String :=
  if profileLines A ≠ [] ∨ profileLines B ≠ [] then
    ("Возможное взаимодействие: " ++ A.drug.name ++ " + " ++ B.drug.name ++
     " (оба фармакологически активны)") :: (profileLines A ++ profileLines B)
  else []

/-- The single last-resort fallback sentence (line 381). -/
def noProfileSentence : String :=
  "Нет особого фармакологического профиля для взаимодействия"

/-- Final mechanism list (lines 353-381): detector/CYP text when present,
otherwise the profile fallback, otherwise the single fallback sentence. -/
def mechanismsOf (fz : Matcher) (A B : DrugData) : List String :=
  if mechanismsBase fz A B = [] then
    if fallbackMechs A B = [] then [noProfileSentence] else fallbackMechs A B
  else mechanismsBase fz A B

/-- The comment list in program order (lines 296-343 and 391-395),
including the two post-classification heuristic comments. -/
def commentsOf (fz : Matcher) (A B : DrugData) : List String :=
  (if ssriAceiCond A B then ["Риск гипонатриемии повышен"] else []) ++
  (if ssriBetaCond A B then ["Повышение риска брадикардии"] else []) ++
  (if nsaidAceiCond A B then ["Риск ухудшения функции почек"] else []) ++
  ((cypAdditions (ezent A) (ezent B)).map Prod.snd) ++
  (if serotoninCond A B then ["Риск серотонинового синдрома"] else []) ++
  (if hyperkCond A B then ["Риск гиперкалиемии"] else []) ++
  (if bleedCond A B then ["Повышенный риск кровотечения"] else []) ++
  (if qtCond A B then ["Риск удлинения QT интервала"] else []) ++
  (if (let mt := lowerS (String.intercalate " " (mechanismsOf fz A B));
       strIn "гепато" mt || strIn "печён" mt) then
    ["Потенциально повышенная гепатотоксичность"] else []) ++
  (if toxicityScore fz A B > 1/2 then ["Риск токсичности"] else [])

/-- Joined comment string (`'; '.join(comments) if comments else ''`). -/
def commentsStr (fz : Matcher) (A B : DrugData) : String :=
  let cs := commentsOf fz A B
  if cs = [] then "" else String.intercalate "; " cs

/-- The `mechanisms` field of a result: a list for a fresh computation, a
plain string when read back from the cache (lines 170 and 402). -/
inductive MechField where
  | ofList (l : List String)
  | ofStr (s : String)
deriving DecidableEq

/-- The result dictionary of `analyze_interaction`. `cached` and
`timestamp` are optional because the error placeholder of
`analyze_combination` omits both keys. -/
structure InteractionResult where
  drug_a : String
  drug_b : String
  score : ℚ
  level : String
  mechanisms : MechField
  comments : String
  cached : Option Bool
  timestamp : Option String
deriving DecidableEq

/-- The freshly computed result record (lines 397-406); `now` models
`datetime.utcnow().isoformat()`. -/
def computeResult (fz : Matcher) (A B : DrugData) (now : String) : InteractionResult :=
  { drug_a := A.drug.name
    drug_b := B.drug.name
    score := round3 (clampedScore fz A B)
    level := classifyLevel (clampedScore fz A B)
    mechanisms := .ofList (mechanismsOf fz A B)
    comments := commentsStr fz A B
    cached := some false
    timestamp := some now }

/-- `InteractionEngine.analyze_interaction` (lines 161-415), returning
the result together with the store as left after the write-through cache
update (the cache-hit path reconstructs the result from the stored row
and touches nothing). -/
def analyzeInteraction (fz : Matcher) (st : Store) (now : String)
    (a b : Int) (useCache : Bool) : Except String (InteractionResult × Store) :=
  match (if useCache then getCachedInteraction st a b else none) with
  | some row =>
    match st.drugs (minI a b), st.drugs (maxI a b) with
    | some da, some db =>
      .ok ({ drug_a := da.name, drug_b := db.name, score := row.score, level := row.level,
             mechanisms := .ofStr (row.mechanisms.getD ""), comments := row.notes.getD "",
             cached := some true, timestamp := row.timestamp }, st)
    | _, _ => .error "TypeError: NoneType is not subscriptable"
  | none =>
    match loadDrugData st a with
    | .error e => .error e
    | .ok A =>
      match loadDrugData st b with
      | .error e => .error e
      | .ok B =>
        let r := computeResult fz A B now
        let mechText := if mechanismsOf fz A B = [] then none
                        else some (String.intercalate ", " (mechanismsOf fz A B))
        let notes := if r.comments = "" then none else some r.comments
        .ok (r, cacheInteractionResult st a b r.score r.level mechText notes now)

/-- One iteration of the `analyze_combination` loop (lines 424-435): a
failing pair is replaced by the error placeholder (whose dictionary has
no `cached` or `timestamp` key) and the batch continues. -/
def combStep (fz : Matcher) (now : String) (st : Store) (a b : Int) :
    InteractionResult × Store :=
  match analyzeInteraction fz st now a b true with
  | .ok (r, st') => (r, st')
  | .error e =>
    ({ drug_a := toString a, drug_b := toString b, score := 0, level := "Низкий",
       mechanisms := .ofList [], comments := "Error: " ++ e,
       cached := none, timestamp := none }, st)

/-- The ascending index pairs `(i, j)`, `i < j`, of
`analyze_combination` (lines 420-423). -/
def pairsOf (ids : List Int) : List (Int × Int) :=
  ((List.range ids.length).map (fun i =>
    ((List.range ids.length).filter (fun j => i < j)).map
      (fun j => (ids.getD i 0, ids.getD j 0)))).flatten

/-- `InteractionEngine.analyze_combination` (lines 417-436), threading
the store through the write-through cache updates. -/
def analyzeCombination (fz : Matcher) (st : Store) (now : String) (ids : List Int) :
    List InteractionResult × Store :=
  (pairsOf ids).foldl (fun acc p =>
    let s := combStep fz now acc.2 p.1 p.2
    (acc.1 ++ [s.1], s.2)) ([], st)

/-- The `fuzzy_match` helper (lines 84-91): normalize the key and the
candidates, query the close-match function with `n=3`, translate matches
back to the original candidate spelled by the dict (last occurrence). -/
def fuzzy_match (fz : Matcher) (key : String) (candidates : List String)
    (cutoff : ℚ) : List String :=
  if key = "" ∨ candidates = [] then []
  else
    (fz (normalize key) (firstDedup (candidates.map normalize)) 3 cutoff).filterMap
      (fun m => (candidates.reverse.find? (fun c => normalize c == m)))

/-! ### Concrete stores and result projections used by witnesses and counterexamples -/

/-- The close-match function returning no matches; used on concrete
stores where every comparison either matches exactly or has no close
candidate, so the fuzzy fallback result is empty under `difflib` too. -/
def noFz : Matcher := fun _ _ _ _ => []

/-- Score component of an analysis outcome. -/
def resScore (r : Except String (InteractionResult × Store)) : Option ℚ :=
  match r with
  | .ok p => some p.1.score
  | .error _ => none

/-- Level component of an analysis outcome. -/
def resLevel (r : Except String (InteractionResult × Store)) : Option String :=
  match r with
  | .ok p => some p.1.level
  | .error _ => none

/-- Mechanisms component of an analysis outcome. -/
def resMechs (r : Except String (InteractionResult × Store)) : Option MechField :=
  match r with
  | .ok p => some p.1.mechanisms
  | .error _ => none

/-- Two drugs sharing one target name, with the name duplicated on drug
1's side: the score depends on the argument order. -/
def storeDup : Store :=
  ⟨fun i => if i = 1 then some ⟨"аа"⟩ else if i = 2 then some ⟨"бб"⟩ else none,
   fun i =>
     if i = 1 then ⟨[⟨"ц", some "ингибитор", 0⟩, ⟨"ц", some "ингибитор", 0⟩], [], []⟩
     else if i = 2 then ⟨[⟨"ц", some "ингибитор", 0⟩], [], []⟩
     else ⟨[], [], []⟩,
   fun _ _ => none⟩

/-- Two drugs each holding a single, distinctly named inhibited target
record on the same target. -/
def storeSym : Store :=
  ⟨fun i => if i = 1 then some ⟨"аа"⟩ else if i = 2 then some ⟨"бб"⟩ else none,
   fun i =>
     if i = 1 then ⟨[⟨"ц", some "ингибитор", 0⟩], [], []⟩
     else if i = 2 then ⟨[⟨"ц", some "ингибитор", 0⟩], [], []⟩
     else ⟨[], [], []⟩,
   fun _ _ => none⟩

example : resScore (analyzeInteraction noFz storeDup "t" 1 2 false) = some (1/5) := by
  with_unfolding_all decide
example : resScore (analyzeInteraction noFz storeDup "t" 2 1 false) = some (1/10) := by
  with_unfolding_all decide

/-- Drug 1 carries one target record whose name normalizes to the empty
string; drug 2 has no records at all. -/
def storePunct : Store :=
  ⟨fun i => if i = 1 then some ⟨"аа"⟩ else if i = 2 then some ⟨"бб"⟩ else none,
   fun i =>
     if i = 1 then ⟨[⟨"###", none, 0⟩], [], []⟩
     else ⟨[], [], []⟩,
   fun _ _ => none⟩

example : resMechs (analyzeInteraction noFz storePunct "t" 1 2 false) =
    some (.ofList [noProfileSentence]) := by with_unfolding_all decide

/-- Two present drugs with no pharmacology records and an empty cache. -/
def storeBare : Store :=
  ⟨fun i => if i = 1 then some ⟨"аа"⟩ else if i = 2 then some ⟨"бб"⟩ else none,
   fun _ => ⟨[], [], []⟩,
   fun _ _ => none⟩

/-- First analysis of the bare store (a cache miss). -/
def runBare1 : Except String (InteractionResult × Store) :=
  analyzeInteraction noFz storeBare "t1" 1 2 true

/-- Second analysis, on the store left by the first (a cache hit). -/
def runBare2 : Except String (InteractionResult × Store) :=
  runBare1.bind (fun p => analyzeInteraction noFz p.2 "t2" 1 2 true)

example : resMechs runBare1 = some (.ofList [noProfileSentence]) := by
  with_unfolding_all decide
example : resMechs runBare2 = some (.ofStr noProfileSentence) := by
  with_unfolding_all decide

/-- One shared non-CYP enzyme with an inhibitor+substrate role pair; the
inhibitor-side record carries rate 0. -/
def storeRate0 : Store :=
  ⟨fun i => if i = 1 then some ⟨"аа"⟩ else if i = 2 then some ⟨"бб"⟩ else none,
   fun i =>
     if i = 1 then ⟨[], [⟨"abc", some "ингибитор", 0⟩], []⟩
     else if i = 2 then ⟨[], [⟨"abc", some "субстрат", 0⟩], []⟩
     else ⟨[], [], []⟩,
   fun _ _ => none⟩

/-- Identical to `storeRate0` except that the inhibitor-side record
carries rate 1. -/
def storeRate1 : Store :=
  ⟨fun i => if i = 1 then some ⟨"аа"⟩ else if i = 2 then some ⟨"бб"⟩ else none,
   fun i =>
     if i = 1 then ⟨[], [⟨"abc", some "ингибитор", 1⟩], []⟩
     else if i = 2 then ⟨[], [⟨"abc", some "субстрат", 0⟩], []⟩
     else ⟨[], [], []⟩,
   fun _ _ => none⟩

example : resScore (analyzeInteraction noFz storeRate0 "t" 1 2 false) = some (7/40) := by
  with_unfolding_all decide
example : resScore (analyzeInteraction noFz storeRate1 "t" 1 2 false) = some (7/40) := by
  with_unfolding_all decide

/-- One shared CYP3A4 enzyme with an inhibitor+substrate role pair: both
the metabolic detector and the CYP clinical rule fire. -/
def storeCyp : Store :=
  ⟨fun i => if i = 1 then some ⟨"аа"⟩ else if i = 2 then some ⟨"бб"⟩ else none,
   fun i =>
     if i = 1 then ⟨[], [⟨"cyp3a4", some "ингибитор", 0⟩], []⟩
     else if i = 2 then ⟨[], [⟨"cyp3a4", some "субстрат", 0⟩], []⟩
     else ⟨[], [], []⟩,
   fun _ _ => none⟩

example : resMechs (analyzeInteraction noFz storeCyp "t" 1 2 false) =
    some (.ofList ["cyp3a4: ингибирование (A ингибирует B)",
                   "Shared CYP3A4 substrate + inhibitor"]) := by
  with_unfolding_all decide

/-! ### Shape of a fresh analysis -/

/-- A fresh (`use_cache=False`) analysis that returns a result returns
exactly the `computeResult` of the two loaded profiles. -/
theorem analyze_fresh_inv (fz : Matcher) (st : Store) (now : String) (a b : Int)
    (r : InteractionResult) (st' : Store)
    (h : analyzeInteraction fz st now a b false = .ok (r, st')) :
    ∃ A B, loadDrugData st a = .ok A ∧ loadDrugData st b = .ok B ∧
      r = computeResult fz A B now ∧
      st' = cacheInteractionResult st a b r.score r.level
        (if mechanismsOf fz A B = [] then none
         else some (String.intercalate ", " (mechanismsOf fz A B)))
        (if r.comments = "" then none else some r.comments) now := by
  unfold analyzeInteraction at h
  cases hA : loadDrugData st a with
  | error e => simp [hA] at h
  | ok A =>
    cases hB : loadDrugData st b with
    | error e => simp [hA, hB] at h
    | ok B =>
      simp only [Bool.false_eq_true, if_false, hA, hB, Except.ok.injEq, Prod.mk.injEq] at h
      obtain ⟨hr, hst⟩ := h
      subst hr
      exact ⟨A, B, rfl, rfl, rfl, hst.symm⟩

/-- A fresh analysis on two present drugs succeeds with the computed
result. -/
theorem analyze_fresh_ok (fz : Matcher) (st : Store) (now : String) (a b : Int)
    (A B : DrugData) (hA : loadDrugData st a = .ok A) (hB : loadDrugData st b = .ok B) :
    ∃ st', analyzeInteraction fz st now a b false = .ok (computeResult fz A B now, st') := by
  unfold analyzeInteraction
  simp only [Bool.false_eq_true, if_false, hA, hB]
  exact ⟨_, rfl⟩

/-! ### Bounds on clamping and rounding -/

/-- The rounded numerator stays within `[0, 1000]` for inputs in `[0, 1]`. -/
theorem rhe3_bounds {x : ℚ} (h0 : 0 ≤ x) (h1 : x ≤ 1) :
    0 ≤ rhe3 x ∧ rhe3 x ≤ 1000 := by
  have hy0 : (0 : ℚ) ≤ x * 1000 := by nlinarith
  have hy1 : x * 1000 ≤ 1000 := by nlinarith
  have hf0 : 0 ≤ ⌊x * 1000⌋ := Int.floor_nonneg.mpr hy0
  have hfle : (⌊x * 1000⌋ : ℚ) ≤ x * 1000 := Int.floor_le _
  have hcap : ⌊x * 1000⌋ ≤ 1000 := by
    have h' : ⌊x * 1000⌋ ≤ ⌊(1000 : ℚ)⌋ := Int.floor_le_floor hy1
    have : ⌊(1000 : ℚ)⌋ = 1000 := by
      rw [show ((1000 : ℚ)) = ((1000 : ℤ) : ℚ) by norm_num, Int.floor_intCast]
    omega
  have hsucc : ¬ (x * 1000 - ⌊x * 1000⌋ < 1/2) → ⌊x * 1000⌋ ≤ 999 := by
    intro hge
    push_neg at hge
    by_contra hcon
    push_neg at hcon
    have : ((1000 : ℤ) : ℚ) ≤ (⌊x * 1000⌋ : ℚ) := by exact_mod_cast hcon
    push_cast at this
    linarith
  simp only [rhe3, ← Rat.floor_def]
  split_ifs with hb1 hb2 hb3
  · exact ⟨hf0, hcap⟩
  · have := hsucc hb1
    omega
  · exact ⟨hf0, hcap⟩
  · have := hsucc hb1
    omega

/-- `round3` maps `[0, 1]` into `[0, 1]`. -/
theorem round3_bounds {x : ℚ} (h0 : 0 ≤ x) (h1 : x ≤ 1) :
    0 ≤ round3 x ∧ round3 x ≤ 1 := by
  obtain ⟨l, u⟩ := rhe3_bounds h0 h1
  unfold round3
  constructor
  · apply div_nonneg _ (by norm_num)
    exact_mod_cast l
  · rw [div_le_one (by norm_num)]
    exact_mod_cast u

/-- The clamp of line 351 lands in `[0, 1]` whatever the raw score is. -/
theorem clampedScore_bounds (fz : Matcher) (A B : DrugData) :
    0 ≤ clampedScore fz A B ∧ clampedScore fz A B ≤ 1 := by
  unfold clampedScore pyMax pyMin
  split_ifs <;> constructor <;> linarith

/-- C2: every score of a fresh `analyze_interaction` lies in `[0, 1]` and
is an integer multiple of `1/1000` (three decimal places), for every
store, matcher and drug pair — the clamp guarantees the bound however
many contributions accumulate. -/
theorem score_bounds_and_rounding (fz : Matcher) (st : Store) (now : String)
    (a b : Int) (r : InteractionResult) (st' : Store)
    (h : analyzeInteraction fz st now a b false = .ok (r, st')) :
    0 ≤ r.score ∧ r.score ≤ 1 ∧ ∃ z : ℤ, r.score = (z : ℚ) / 1000 := by
  obtain ⟨A, B, _, _, hr, _⟩ := analyze_fresh_inv fz st now a b r st' h
  subst hr
  have hc := clampedScore_bounds fz A B
  have hb := round3_bounds hc.1 hc.2
  exact ⟨hb.1, hb.2, rhe3 (clampedScore fz A B), rfl⟩

/-- Witness for C2 on a concrete store. -/
theorem score_bounds_and_rounding_witness :
    ∃ r st', analyzeInteraction noFz storeBare "t" 1 2 false = .ok (r, st') ∧
      0 ≤ r.score ∧ r.score ≤ 1 ∧ ∃ z : ℤ, r.score = (z : ℚ) / 1000 := by
  obtain ⟨st', h⟩ := analyze_fresh_ok noFz storeBare "t" 1 2 ⟨⟨"аа"⟩, [], [], []⟩
    ⟨⟨"бб"⟩, [], [], []⟩ (by with_unfolding_all rfl) (by with_unfolding_all rfl)
  exact ⟨_, st', h, score_bounds_and_rounding noFz storeBare "t" 1 2 _ st' h⟩

/-- C4: the severity level of a fresh analysis is `classifyLevel` of the
clamped numeric score — a function of the score alone — and the fixed
boundaries give Low at 0.29, Medium at 0.30 and 0.59, High at 0.60. -/
theorem severity_pure_function :
    (∀ (fz : Matcher) (st : Store) (now : String) (a b : Int) (r : InteractionResult)
       (st' : Store) (A B : DrugData),
       loadDrugData st a = .ok A → loadDrugData st b = .ok B →
       analyzeInteraction fz st now a b false = .ok (r, st') →
       r.level = classifyLevel (clampedScore fz A B)) ∧
    classifyLevel (29/100) = "Низкий" ∧ classifyLevel (30/100) = "Средний" ∧
    classifyLevel (59/100) = "Средний" ∧ classifyLevel (60/100) = "Высокий" := by
  refine ⟨?_, ?_, ?_, ?_, ?_⟩
  · intro fz st now a b r st' A B hA hB h
    obtain ⟨A', B', hA', hB', hr, _⟩ := analyze_fresh_inv fz st now a b r st' h
    rw [hA] at hA'
    rw [hB] at hB'
    injection hA' with hAA
    injection hB' with hBB
    subst hAA
    subst hBB
    subst hr
    rfl
  all_goals with_unfolding_all decide

/-- Witness for C4 on a concrete store. -/
theorem severity_pure_function_witness :
    ∃ r st', analyzeInteraction noFz storeBare "t" 1 2 false = .ok (r, st') ∧
      r.level = classifyLevel (clampedScore noFz ⟨⟨"аа"⟩, [], [], []⟩ ⟨⟨"бб"⟩, [], [], []⟩) := by
  obtain ⟨st', h⟩ := analyze_fresh_ok noFz storeBare "t" 1 2 ⟨⟨"аа"⟩, [], [], []⟩
    ⟨⟨"бб"⟩, [], [], []⟩ (by with_unfolding_all rfl) (by with_unfolding_all rfl)
  exact ⟨_, st', h, severity_pure_function.1 noFz storeBare "t" 1 2 _ st'
    ⟨⟨"аа"⟩, [], [], []⟩ ⟨⟨"бб"⟩, [], [], []⟩ (by with_unfolding_all rfl)
    (by with_unfolding_all rfl) h⟩

/-- C10: for a fixed store, two fresh analyses of the same pair agree on
every result field except the timestamp, whatever two clock readings the
calls observe — the outcome is a deterministic function of the store,
the matcher and the pair. -/
theorem fresh_analysis_deterministic (fz : Matcher) (st : Store) (now1 now2 : String)
    (a b : Int) (r1 r2 : InteractionResult) (st1 st2 : Store)
    (h1 : analyzeInteraction fz st now1 a b false = .ok (r1, st1))
    (h2 : analyzeInteraction fz st now2 a b false = .ok (r2, st2)) :
    r1.drug_a = r2.drug_a ∧ r1.drug_b = r2.drug_b ∧ r1.score = r2.score ∧
    r1.level = r2.level ∧ r1.mechanisms = r2.mechanisms ∧
    r1.comments = r2.comments ∧ r1.cached = r2.cached := by
  obtain ⟨A, B, hA, hB, hr1, _⟩ := analyze_fresh_inv fz st now1 a b r1 st1 h1
  obtain ⟨A', B', hA', hB', hr2, _⟩ := analyze_fresh_inv fz st now2 a b r2 st2 h2
  rw [hA] at hA'
  rw [hB] at hB'
  injection hA' with hAA
  injection hB' with hBB
  subst hAA
  subst hBB
  subst hr1
  subst hr2
  exact ⟨rfl, rfl, rfl, rfl, rfl, rfl, rfl⟩

/-- Witness for C10 with two distinct timestamps on a concrete store. -/
theorem fresh_analysis_deterministic_witness :
    ∃ r1 r2 st1 st2,
      analyzeInteraction noFz storeBare "t1" 1 2 false = .ok (r1, st1) ∧
      analyzeInteraction noFz storeBare "t2" 1 2 false = .ok (r2, st2) ∧
      r1.score = r2.score ∧ r1.level = r2.level ∧ r1.mechanisms = r2.mechanisms ∧
      r1.comments = r2.comments := by
  obtain ⟨st1, h1⟩ := analyze_fresh_ok noFz storeBare "t1" 1 2 ⟨⟨"аа"⟩, [], [], []⟩
    ⟨⟨"бб"⟩, [], [], []⟩ (by with_unfolding_all rfl) (by with_unfolding_all rfl)
  obtain ⟨st2, h2⟩ := analyze_fresh_ok noFz storeBare "t2" 1 2 ⟨⟨"аа"⟩, [], [], []⟩
    ⟨⟨"бб"⟩, [], [], []⟩ (by with_unfolding_all rfl) (by with_unfolding_all rfl)
  have := fresh_analysis_deterministic noFz storeBare "t1" "t2" 1 2 _ _ st1 st2 h1 h2
  exact ⟨_, _, st1, st2, h1, h2, this.2.2.1, this.2.2.2.1, this.2.2.2.2.1, this.2.2.2.2.2.1⟩

/-- C1 counterexample: on `storeDup` the fresh numeric score depends on
the argument order (0.2 one way, 0.1 the other), because duplicate
normalized target names on one side pair twice in one direction and once
in the other. -/
theorem score_not_symmetric_counterexample :
    resScore (analyzeInteraction noFz storeDup "t" 1 2 false) = some (1/5) ∧
    resScore (analyzeInteraction noFz storeDup "t" 2 1 false) = some (1/10) ∧
    ((1 : ℚ)/5) ≠ 1/10 := by
  refine ⟨?_, ?_, ?_⟩ <;> with_unfolding_all decide

/-- C8 counterexample: two stores identical except for the inhibitor
record's strength (rate 0 versus rate 1) produce the same score 0.175;
under the claimed `w_strong * strength(inhibitor)` contribution the zero
strength run would have scored 0. -/
theorem strength_ignored_counterexample :
    resScore (analyzeInteraction noFz storeRate0 "t" 1 2 false) = some (7/40) ∧
    resScore (analyzeInteraction noFz storeRate1 "t" 1 2 false) = some (7/40) ∧
    ((7 : ℚ)/40) ≠ 0 := by
  refine ⟨?_, ?_, ?_⟩ <;> with_unfolding_all decide

/-- C8 amended: the metabolic inhibitor+substrate contribution is the
flat constant 0.50 and the both-inhibitor target contribution is the
flat constant 0.40, for records carrying any strength values. -/
theorem flat_contributions :
    (∀ ra rb : MetabRec, roleLower ra.role = "ингибитор" →
      roleLower rb.role = "субстрат" → metabWeight ra rb = 1/2) ∧
    (∀ ta tb : TargetRec, effTypeLower ta = "ингибитор" →
      effTypeLower tb = "ингибитор" → targetWeight ta tb = 2/5) := by
  constructor
  · intro ra rb h1 h2
    unfold metabWeight
    rw [h1, h2]
    simp
  · intro ta tb h1 h2
    unfold targetWeight
    rw [h1, h2]
    simp

/-- Witness for the flat-contribution theorem on concrete records. -/
theorem flat_contributions_witness :
    metabWeight ⟨"e", some "ингибитор", 0⟩ ⟨"e", some "субстрат", 1⟩ = 1/2 ∧
    targetWeight ⟨"t", some "ингибитор", 0⟩ ⟨"t", some "ингибитор", 1⟩ = 2/5 :=
  ⟨flat_contributions.1 _ _ (by decide) (by decide),
   flat_contributions.2 _ _ (by decide) (by decide)⟩

/-- C9 counterexample: on `storeCyp` the CYP clinical rule appends the
mechanism string "Shared CYP3A4 substrate + inhibitor" to the mechanism
list (after the detector line), so a clinical rule does append a
mechanism, not only a comment. -/
theorem cyp_rule_appends_mechanism_counterexample :
    resMechs (analyzeInteraction noFz storeCyp "t" 1 2 false) =
      some (.ofList ["cyp3a4: ингибирование (A ингибирует B)",
                     "Shared CYP3A4 substrate + inhibitor"]) := by
  with_unfolding_all decide

/-! ### Error handling (C5) -/

/-- The canonical pair is made of the two given ids. -/
theorem minI_maxI_pair (a b : Int) :
    (minI a b = a ∧ maxI a b = b) ∨ (minI a b = b ∧ maxI a b = a) := by
  unfold minI maxI
  split_ifs <;> simp

/-- C5: a missing drug id is the engine's only hard failure — when
either id is absent `analyze_interaction` returns an error however it is
called, when both are present a fresh call succeeds, and
`analyze_combination` replaces a failing pair by the score-0 / Low /
empty-mechanisms / "Error:"-comment placeholder while always yielding one
result per enumerated pair. -/
theorem notfound_and_batch_isolation :
    (∀ (fz : Matcher) (st : Store) (now : String) (a b : Int) (u : Bool),
       st.drugs a = none ∨ st.drugs b = none →
       ∃ e, analyzeInteraction fz st now a b u = .error e) ∧
    (∀ (fz : Matcher) (st : Store) (now : String) (a b : Int) (da db : Drug),
       st.drugs a = some da → st.drugs b = some db →
       ∃ r st', analyzeInteraction fz st now a b false = .ok (r, st')) ∧
    (∀ (fz : Matcher) (st : Store) (now : String) (ids : List Int),
       (analyzeCombination fz st now ids).1.length = (pairsOf ids).length) ∧
    (∀ (fz : Matcher) (now : String) (st : Store) (a b : Int) (e : String),
       analyzeInteraction fz st now a b true = .error e →
       combStep fz now st a b =
         ({ drug_a := toString a, drug_b := toString b, score := 0, level := "Низкий",
            mechanisms := .ofList [], comments := "Error: " ++ e,
            cached := none, timestamp := none }, st)) := by
  refine ⟨?_, ?_, ?_, ?_⟩
  · intro fz st now a b u hmiss
    have hfresh : ∃ e,
        (match loadDrugData st a with
         | .error e => Except.error e
         | .ok A =>
           match loadDrugData st b with
           | .error e => Except.error e
           | .ok B =>
             let r := computeResult fz A B now
             let mechText := if mechanismsOf fz A B = [] then none
                             else some (String.intercalate ", " (mechanismsOf fz A B))
             let notes := if r.comments = "" then none else some r.comments
             Except.ok (r, cacheInteractionResult st a b r.score r.level mechText notes now))
          = (Except.error e : Except String (InteractionResult × Store)) := by
      cases hA : st.drugs a with
      | none =>
        exact ⟨"Drug id " ++ toString a ++ " not found", by simp [loadDrugData, hA]⟩
      | some da =>
        have hb : st.drugs b = none := by
          rcases hmiss with h | h
          · rw [hA] at h; cases h
          · exact h
        exact ⟨"Drug id " ++ toString b ++ " not found", by simp [loadDrugData, hA, hb]⟩
    unfold analyzeInteraction
    cases u with
    | false => simpa using hfresh
    | true =>
      cases hc : getCachedInteraction st a b with
      | none => simpa [hc] using hfresh
      | some p =>
        have hone : st.drugs (minI a b) = none ∨ st.drugs (maxI a b) = none := by
          rcases minI_maxI_pair a b with ⟨h1, h2⟩ | ⟨h1, h2⟩ <;> rcases hmiss with h | h <;>
            simp [h1, h2, h]
        rcases hone with h | h
        · exact ⟨"TypeError: NoneType is not subscriptable", by simp [hc, h]⟩
        · cases hx : st.drugs (minI a b) with
          | none => exact ⟨"TypeError: NoneType is not subscriptable", by simp [hc, hx]⟩
          | some d => exact ⟨"TypeError: NoneType is not subscriptable", by simp [hc, hx, h]⟩
  · intro fz st now a b da db hA hB
    obtain ⟨st', h⟩ := analyze_fresh_ok fz st now a b
      ⟨da, (st.pharm a).targets, (st.pharm a).metabolism, (st.pharm a).effects⟩
      ⟨db, (st.pharm b).targets, (st.pharm b).metabolism, (st.pharm b).effects⟩
      (by simp [loadDrugData, hA]) (by simp [loadDrugData, hB])
    exact ⟨_, st', h⟩
  · intro fz st now ids
    have haux : ∀ (l : List (Int × Int)) (acc : List InteractionResult × Store),
        ((l.foldl (fun acc p =>
          let s := combStep fz now acc.2 p.1 p.2
          (acc.1 ++ [s.1], s.2)) acc).1).length = acc.1.length + l.length := by
      intro l
      induction l with
      | nil => intro acc; simp
      | cons p rest ih =>
        intro acc
        simp only [List.foldl_cons, ih, List.length_append, List.length_cons,
          List.length_nil]
        omega
    unfold analyzeCombination
    rw [haux]
    simp
  · intro fz now st a b e h
    unfold combStep
    rw [h]

/-- Witness for C5: drug 3 is absent from `storeBare`, so the (1,3) pair
errors, a present pair succeeds, the batch over `[1, 3, 2]` still yields
one result per pair, and the failing pair's step yields the placeholder. -/
theorem notfound_and_batch_isolation_witness :
    (∃ e, analyzeInteraction noFz storeBare "t" 1 3 true = .error e) ∧
    (∃ r st', analyzeInteraction noFz storeBare "t" 1 2 false = .ok (r, st')) ∧
    (analyzeCombination noFz storeBare "t" [1, 3, 2]).1.length = (pairsOf [1, 3, 2]).length ∧
    combStep noFz "t" storeBare 1 3 =
      ({ drug_a := "1", drug_b := "3", score := 0, level := "Низкий",
         mechanisms := .ofList [], comments := "Error: " ++ "Drug id 3 not found",
         cached := none, timestamp := none }, storeBare) := by
  refine ⟨?_, ?_, ?_, ?_⟩
  · exact notfound_and_batch_isolation.1 noFz storeBare "t" 1 3 true
      (Or.inr (by with_unfolding_all rfl))
  · exact notfound_and_batch_isolation.2.1 noFz storeBare "t" 1 2 ⟨"аа"⟩ ⟨"бб"⟩
      (by with_unfolding_all rfl) (by with_unfolding_all rfl)
  · exact notfound_and_batch_isolation.2.2.1 noFz storeBare "t" [1, 3, 2]
  · exact notfound_and_batch_isolation.2.2.2 noFz "t" storeBare 1 3 "Drug id 3 not found"
      (by with_unfolding_all rfl)

/-! ### The mechanism list is never empty (C6) -/

/-- `mechanismsOf` never returns the empty list. -/
theorem mechanismsOf_ne_nil (fz : Matcher) (A B : DrugData) :
    mechanismsOf fz A B ≠ [] := by
  unfold mechanismsOf
  split_ifs with h1 h2
  · simp
  · exact h2
  · exact h1

/-- C6 (amended): the fresh mechanism list is never empty; it is exactly
the single no-profile sentence when both drugs have no records at all;
when no detector/CYP text was produced but the profile fallback is
non-empty the list is exactly the fallback block; and the fallback block
is non-empty as soon as one drug has a record with a non-empty
normalized name. -/
theorem mechanisms_never_empty :
    (∀ (fz : Matcher) (st : Store) (now : String) (a b : Int)
       (r : InteractionResult) (st' : Store),
       analyzeInteraction fz st now a b false = .ok (r, st') →
       ∃ l, r.mechanisms = .ofList l ∧ l ≠ []) ∧
    (∀ (fz : Matcher) (st : Store) (now : String) (a b : Int)
       (r : InteractionResult) (st' : Store) (A B : DrugData),
       loadDrugData st a = .ok A → loadDrugData st b = .ok B →
       A.targets = [] → A.metabolism = [] → A.effects = [] →
       B.targets = [] → B.metabolism = [] → B.effects = [] →
       analyzeInteraction fz st now a b false = .ok (r, st') →
       r.mechanisms = .ofList [noProfileSentence]) ∧
    (∀ (fz : Matcher) (st : Store) (now : String) (a b : Int)
       (r : InteractionResult) (st' : Store) (A B : DrugData),
       loadDrugData st a = .ok A → loadDrugData st b = .ok B →
       mechanismsBase fz A B = [] → fallbackMechs A B ≠ [] →
       analyzeInteraction fz st now a b false = .ok (r, st') →
       r.mechanisms = .ofList (fallbackMechs A B)) ∧
    (∀ A B : DrugData,
       tnames A ≠ [] ∨ ezent A ≠ [] ∨ enames A ≠ [] ∨
       tnames B ≠ [] ∨ ezent B ≠ [] ∨ enames B ≠ [] →
       fallbackMechs A B ≠ []) := by
  have hload : ∀ (st : Store) (i : Int) (A : DrugData), loadDrugData st i = .ok A →
      A.targets = (st.pharm i).targets ∧ A.metabolism = (st.pharm i).metabolism ∧
      A.effects = (st.pharm i).effects := by
    intro st i A h
    unfold loadDrugData at h
    cases hx : st.drugs i with
    | none => rw [hx] at h; cases h
    | some d =>
      rw [hx] at h
      injection h with h'
      subst h'
      exact ⟨rfl, rfl, rfl⟩
  have hprofile : ∀ A : DrugData, profileLines A = [] →
      tnames A = [] ∧ ezent A = [] ∧ enames A = [] := by
    intro A h
    unfold profileLines at h
    rcases List.append_eq_nil.mp h with ⟨h12, h3⟩
    rcases List.append_eq_nil.mp h12 with ⟨h1, h2⟩
    refine ⟨?_, ?_, ?_⟩
    · by_contra hc; simp [hc] at h1
    · by_contra hc; simp [hc] at h2
    · by_contra hc; simp [hc] at h3
  refine ⟨?_, ?_, ?_, ?_⟩
  · intro fz st now a b r st' h
    obtain ⟨A, B, _, _, hr, _⟩ := analyze_fresh_inv fz st now a b r st' h
    subst hr
    exact ⟨mechanismsOf fz A B, rfl, mechanismsOf_ne_nil fz A B⟩
  · intro fz st now a b r st' A B hA hB hat ham hae hbt hbm hbe h
    obtain ⟨A', B', hA', hB', hr, _⟩ := analyze_fresh_inv fz st now a b r st' h
    rw [hA] at hA'
    rw [hB] at hB'
    injection hA' with hAA
    injection hB' with hBB
    subst hAA
    subst hBB
    subst hr
    show MechField.ofList (mechanismsOf fz A B) = _
    have hbase : mechanismsBase fz A B = [] := by
      unfold mechanismsBase sharedEnzymes sharedTargets effectsOverlap sharedPairs
        cypAdditions ezent enzymeEntries
      rw [hat, ham, hae, hbm]
      simp
    have hfb : fallbackMechs A B = [] := by
      unfold fallbackMechs profileLines tnames targetNames ezent enzymeEntries
        enames effectNames
      rw [hat, ham, hae, hbt, hbm, hbe]
      simp
    unfold mechanismsOf
    rw [hbase, hfb]
    simp
  · intro fz st now a b r st' A B hA hB hbase hfb h
    obtain ⟨A', B', hA', hB', hr, _⟩ := analyze_fresh_inv fz st now a b r st' h
    rw [hA] at hA'
    rw [hB] at hB'
    injection hA' with hAA
    injection hB' with hBB
    subst hAA
    subst hBB
    subst hr
    show MechField.ofList (mechanismsOf fz A B) = _
    unfold mechanismsOf
    rw [hbase]
    simp [hfb]
  · intro A B hne
    unfold fallbackMechs
    split_ifs with h
    · simp
    · push_neg at h
      obtain ⟨hpa, hpb⟩ := h
      obtain ⟨h1, h2, h3⟩ := hprofile A hpa
      obtain ⟨h4, h5, h6⟩ := hprofile B hpb
      rcases hne with h | h | h | h | h | h <;> contradiction

/-- Witness for C6 on concrete stores: the never-empty part on
`storeDup`, the both-empty part on `storeBare`, the fallback-block part
on a one-target store, and the fallback non-emptiness. -/
theorem mechanisms_never_empty_witness :
    (∃ l, ∃ r st', analyzeInteraction noFz storeDup "t" 1 2 false = .ok (r, st') ∧
       r.mechanisms = .ofList l ∧ l ≠ []) ∧
    (∃ r st', analyzeInteraction noFz storeBare "t" 1 2 false = .ok (r, st') ∧
       r.mechanisms = .ofList [noProfileSentence]) ∧
    fallbackMechs ⟨⟨"аа"⟩, [⟨"ц", some "ингибитор", 0⟩], [], []⟩ ⟨⟨"бб"⟩, [], [], []⟩ ≠ [] := by
  refine ⟨?_, ?_, ?_⟩
  · obtain ⟨st', h⟩ := analyze_fresh_ok noFz storeDup "t" 1 2
      ⟨⟨"аа"⟩, [⟨"ц", some "ингибитор", 0⟩, ⟨"ц", some "ингибитор", 0⟩], [], []⟩
      ⟨⟨"бб"⟩, [⟨"ц", some "ингибитор", 0⟩], [], []⟩
      (by with_unfolding_all rfl) (by with_unfolding_all rfl)
    obtain ⟨l, hl, hne⟩ := mechanisms_never_empty.1 noFz storeDup "t" 1 2 _ st' h
    exact ⟨l, _, st', h, hl, hne⟩
  · obtain ⟨st', h⟩ := analyze_fresh_ok noFz storeBare "t" 1 2 ⟨⟨"аа"⟩, [], [], []⟩
      ⟨⟨"бб"⟩, [], [], []⟩ (by with_unfolding_all rfl) (by with_unfolding_all rfl)
    exact ⟨_, st', h, mechanisms_never_empty.2.1 noFz storeBare "t" 1 2 _ st'
      ⟨⟨"аа"⟩, [], [], []⟩ ⟨⟨"бб"⟩, [], [], []⟩ (by with_unfolding_all rfl)
      (by with_unfolding_all rfl) rfl rfl rfl rfl rfl rfl h⟩
  · exact mechanisms_never_empty.2.2.2 _ _ (Or.inl (by with_unfolding_all decide))

/-- C6 counterexample: drug 1 of `storePunct` has a target record (name
"###"), yet because its normalized name is empty the fresh mechanism
list is the single no-profile sentence instead of the record-count
lines the claim promises whenever a drug has any record. -/
theorem fallback_despite_records_counterexample :
    (storePunct.pharm 1).targets ≠ [] ∧
    resMechs (analyzeInteraction noFz storePunct "t" 1 2 false) =
      some (.ofList [noProfileSentence]) := by
  refine ⟨?_, ?_⟩ <;> with_unfolding_all decide

/-! ### Cache round-trip (C7) -/

/-- On a cache miss, the cached call behaves as the fresh call. -/
theorem analyze_cache_miss (fz : Matcher) (st : Store) (now : String) (a b : Int)
    (hmiss : getCachedInteraction st a b = none) :
    analyzeInteraction fz st now a b true = analyzeInteraction fz st now a b false := by
  unfold analyzeInteraction
  rw [if_pos rfl, hmiss]
  rfl

/-- A successful profile load means the drug row is present. -/
theorem loadDrugData_drugs (st : Store) (i : Int) (A : DrugData)
    (h : loadDrugData st i = .ok A) : st.drugs i = some A.drug := by
  unfold loadDrugData at h
  cases hx : st.drugs i with
  | none => rw [hx] at h; cases h
  | some d =>
    rw [hx] at h
    injection h with h'
    subst h'
    rfl

/-- C7 (amended): after a fresh computation the second call returns
immediately from the cache with the same score, level and comment
string and `cached = true`; the result has the same field names but its
`mechanisms` field is the `', '`-joined string of the fresh list rather
than a list. -/
theorem cache_roundtrip_values (fz : Matcher) (st : Store) (now1 now2 : String)
    (a b : Int) (r1 : InteractionResult) (st1 : Store)
    (hmiss : getCachedInteraction st a b = none)
    (h1 : analyzeInteraction fz st now1 a b true = .ok (r1, st1)) :
    ∃ r2 st2, analyzeInteraction fz st1 now2 a b true = .ok (r2, st2) ∧
      r2.score = r1.score ∧ r2.level = r1.level ∧ r2.comments = r1.comments ∧
      r2.cached = some true ∧
      ∃ l, r1.mechanisms = .ofList l ∧
        r2.mechanisms = .ofStr (String.intercalate ", " l) := by
  rw [analyze_cache_miss fz st now1 a b hmiss] at h1
  obtain ⟨A, B, hA, hB, hr, hst⟩ := analyze_fresh_inv fz st now1 a b r1 st1 h1
  have hmech : (if mechanismsOf fz A B = [] then none
      else some (String.intercalate ", " (mechanismsOf fz A B)))
      = some (String.intercalate ", " (mechanismsOf fz A B)) :=
    if_neg (mechanismsOf_ne_nil fz A B)
  have hp : getCachedInteraction st1 a b =
      some ⟨r1.score, r1.level, some (String.intercalate ", " (mechanismsOf fz A B)),
            if r1.comments = "" then none else some r1.comments, some now1⟩ := by
    subst hst
    unfold getCachedInteraction cacheInteractionResult
    rw [hmech]
    simp
  have hdrugs1 : st1.drugs = st.drugs := by
    subst hst
    rfl
  have hda : st.drugs a = some A.drug := loadDrugData_drugs st a A hA
  have hdb : st.drugs b = some B.drug := loadDrugData_drugs st b B hB
  have hmin : ∃ d, st.drugs (minI a b) = some d := by
    rcases minI_maxI_pair a b with ⟨h1', _⟩ | ⟨h1', _⟩
    · exact ⟨A.drug, by rw [h1']; exact hda⟩
    · exact ⟨B.drug, by rw [h1']; exact hdb⟩
  have hmax : ∃ d, st.drugs (maxI a b) = some d := by
    rcases minI_maxI_pair a b with ⟨_, h2'⟩ | ⟨_, h2'⟩
    · exact ⟨B.drug, by rw [h2']; exact hdb⟩
    · exact ⟨A.drug, by rw [h2']; exact hda⟩
  obtain ⟨dmin, hdmin⟩ := hmin
  obtain ⟨dmax, hdmax⟩ := hmax
  refine ⟨⟨dmin.name, dmax.name, r1.score, r1.level,
      .ofStr (String.intercalate ", " (mechanismsOf fz A B)),
      (if r1.comments = "" then none else some r1.comments).getD "",
      some true, some now1⟩, st1, ?_, rfl, rfl, ?_, rfl, ?_⟩
  · unfold analyzeInteraction
    rw [if_pos rfl, hp, hdrugs1, hdmin, hdmax]
    rfl
  · show (if r1.comments = "" then none else some r1.comments).getD "" = r1.comments
    split_ifs with hc
    · rw [hc]; rfl
    · rfl
  · refine ⟨mechanismsOf fz A B, ?_, rfl⟩
    rw [hr]
    rfl

/-- Witness for C7 on `storeBare`: the fresh-then-cached call pair with
identical score/level/comments and the joined mechanism string. -/
theorem cache_roundtrip_values_witness :
    ∃ r1 st1 r2 st2,
      analyzeInteraction noFz storeBare "t1" 1 2 true = .ok (r1, st1) ∧
      analyzeInteraction noFz st1 "t2" 1 2 true = .ok (r2, st2) ∧
      r2.score = r1.score ∧ r2.level = r1.level ∧ r2.comments = r1.comments ∧
      r2.cached = some true ∧
      ∃ l, r1.mechanisms = .ofList l ∧
        r2.mechanisms = .ofStr (String.intercalate ", " l) := by
  have hmiss : getCachedInteraction storeBare 1 2 = none := by with_unfolding_all rfl
  obtain ⟨st1, h1'⟩ := analyze_fresh_ok noFz storeBare "t1" 1 2 ⟨⟨"аа"⟩, [], [], []⟩
    ⟨⟨"бб"⟩, [], [], []⟩ (by with_unfolding_all rfl) (by with_unfolding_all rfl)
  have h1 : analyzeInteraction noFz storeBare "t1" 1 2 true =
      .ok (computeResult noFz ⟨⟨"аа"⟩, [], [], []⟩ ⟨⟨"бб"⟩, [], [], []⟩ "t1", st1) := by
    rw [analyze_cache_miss noFz storeBare "t1" 1 2 hmiss]
    exact h1'
  obtain ⟨r2, st2, h2, hs, hl, hc, hcf, l, hml, hms⟩ :=
    cache_roundtrip_values noFz storeBare "t1" "t2" 1 2 _ st1 hmiss h1
  exact ⟨_, st1, r2, st2, h1, h2, hs, hl, hc, hcf, l, hml, hms⟩

/-- C7 counterexample: on `storeBare` the fresh result's `mechanisms`
field is a list while the cached re-read's `mechanisms` field is a plain
string, so the cached record is distinguishable in shape (field type)
from a freshly computed one. -/
theorem cache_shape_counterexample :
    resMechs runBare1 = some (.ofList [noProfileSentence]) ∧
    resMechs runBare2 = some (.ofStr noProfileSentence) := by
  refine ⟨?_, ?_⟩ <;> with_unfolding_all decide

/-! ### Idempotence analysis of `normalize` (C3) -/

/-- Characters are determined by their code points. -/
theorem char_eq_of_toNat_eq {a b : Char} (h : a.toNat = b.toNat) : a = b :=
  Char.ext (UInt32.ext h)

/-- Allowed characters are fixed points of lower-casing. -/
theorem pyLowerChar_allowed {c : Char} (h : allowedChar c = true) : pyLowerChar c = c := by
  simp only [allowedChar, decide_eq_true_eq] at h
  unfold pyLowerChar
  split_ifs with h1 h2 h3 <;> first | rfl | omega

/-- Among allowed characters the only whitespace character is the space. -/
theorem allowed_space {c : Char} (ha : allowedChar c = true) (hs : pyIsSpace c = true) :
    c = ' ' := by
  simp only [allowedChar, decide_eq_true_eq] at ha
  simp only [pyIsSpace, decide_eq_true_eq] at hs
  apply char_eq_of_toNat_eq
  show c.toNat = 32
  omega

/-- No list position holds two adjacent spaces. -/
def NoDbl (l : List Char) : Prop := l.Chain' (fun a b => ¬(a = ' ' ∧ b = ' '))

/-- `squeeze` keeps the head character. -/
theorem squeeze_cons (b : Char) (rest : List Char) :
    ∃ t, squeeze (b :: rest) = b :: t := by
  induction rest generalizing b with
  | nil => exact ⟨[], rfl⟩
  | cons c rest ih =>
    by_cases h : b = ' ' ∧ c = ' '
    · obtain ⟨t, ht⟩ := ih c
      refine ⟨t, ?_⟩
      rw [show squeeze (b :: c :: rest) = squeeze (c :: rest) from by
        simp [squeeze, h], ht, h.1, h.2]
    · exact ⟨squeeze (c :: rest), by simp [squeeze, h]⟩

/-- `squeeze` produces no adjacent spaces. -/
theorem noDbl_squeeze (l : List Char) : NoDbl (squeeze l) := by
  induction l using squeeze.induct with
  | case1 => simp [squeeze, NoDbl]
  | case2 a => simp [squeeze, NoDbl]
  | case3 a b rest h ih =>
    rw [show squeeze (a :: b :: rest) = squeeze (b :: rest) from by simp [squeeze, h]]
    exact ih
  | case4 a b rest h ih =>
    rw [show squeeze (a :: b :: rest) = a :: squeeze (b :: rest) from by simp [squeeze, h]]
    obtain ⟨t, ht⟩ := squeeze_cons b rest
    rw [ht]
    rw [ht] at ih
    exact List.chain'_cons.mpr ⟨h, ih⟩

/-- `squeeze` fixes lists without adjacent spaces. -/
theorem squeeze_eq_self : ∀ {l : List Char}, NoDbl l → squeeze l = l := by
  intro l
  induction l using squeeze.induct with
  | case1 => intro _; rfl
  | case2 a => intro _; rfl
  | case3 a b rest h ih =>
    intro hc
    exact absurd h (List.chain'_cons.mp hc).1
  | case4 a b rest h ih =>
    intro hc
    rw [show squeeze (a :: b :: rest) = a :: squeeze (b :: rest) from by simp [squeeze, h],
      ih (List.chain'_cons.mp hc).2]

/-- `squeeze` only keeps characters of its input. -/
theorem mem_squeeze {c : Char} : ∀ {l : List Char}, c ∈ squeeze l → c ∈ l := by
  intro l
  induction l using squeeze.induct with
  | case1 => intro h; exact absurd h (by simp [squeeze])
  | case2 a => intro h; simp only [squeeze] at h; exact h
  | case3 a b rest h ih =>
    intro hm
    rw [show squeeze (a :: b :: rest) = squeeze (b :: rest) from by simp [squeeze, h]] at hm
    exact List.mem_cons_of_mem a (ih hm)
  | case4 a b rest h ih =>
    intro hm
    rw [show squeeze (a :: b :: rest) = a :: squeeze (b :: rest) from by simp [squeeze, h]] at hm
    rcases List.mem_cons.mp hm with h' | h'
    · exact h' ▸ List.mem_cons_self _ _
    · exact List.mem_cons_of_mem a (ih h')

/-- `dropTrail` yields a sublist. -/
theorem dropTrail_sublist (p : Char → Bool) : ∀ l : List Char, (dropTrail p l).Sublist l
  | [] => List.Sublist.refl []
  | c :: rest => by
    rw [dropTrail]
    split_ifs
    · exact List.nil_sublist _
    · exact List.Sublist.cons₂ c (dropTrail_sublist p rest)

/-- A non-empty `dropTrail` keeps the head. -/
theorem dropTrail_head? (p : Char → Bool) (l : List Char) :
    dropTrail p l = [] ∨ (dropTrail p l).head? = l.head? := by
  cases l with
  | nil => exact Or.inl rfl
  | cons c rest =>
    rw [dropTrail]
    split_ifs
    · exact Or.inl rfl
    · exact Or.inr rfl

/-- `dropTrail` preserves the no-adjacent-spaces property. -/
theorem noDbl_dropTrail (p : Char → Bool) : ∀ {l : List Char}, NoDbl l → NoDbl (dropTrail p l) := by
  intro l
  induction l with
  | nil => intro _; simp [dropTrail, NoDbl]
  | cons c rest ih =>
    intro h
    rw [dropTrail]
    split_ifs
    · simp [NoDbl]
    · have htail : NoDbl (dropTrail p rest) := ih (List.Chain'.tail h)
      refine List.chain'_cons'.mpr ⟨?_, htail⟩
      intro y hy
      rcases dropTrail_head? p rest with hnil | hh
      · rw [hnil] at hy; cases hy
      · rw [hh] at hy
        cases rest with
        | nil => cases hy
        | cons d t =>
          have hd : d = y := Option.some.inj hy
          subst hd
          exact (List.chain'_cons.mp h).1

/-- `dropWhile` preserves the no-adjacent-spaces property. -/
theorem noDbl_dropWhile (p : Char → Bool) : ∀ {l : List Char}, NoDbl l → NoDbl (l.dropWhile p) := by
  intro l
  induction l with
  | nil => intro _; simp [NoDbl]
  | cons c rest ih =>
    intro h
    rw [List.dropWhile_cons]
    split_ifs
    · exact ih (List.Chain'.tail h)
    · exact h

/-- The head surviving `dropWhile` fails the predicate. -/
theorem head_dropWhile_not (p : Char → Bool) :
    ∀ {l : List Char} {c : Char}, (l.dropWhile p).head? = some c → p c = false := by
  intro l
  induction l with
  | nil => intro c h; cases h
  | cons d rest ih =>
    intro c h
    rw [List.dropWhile_cons] at h
    split_ifs at h with hd
    · exact ih h
    · injection h with h'
      subst h'
      exact Bool.eq_false_iff.mpr hd

/-- The last character surviving `dropTrail` fails the predicate. -/
theorem dropTrail_last_not (p : Char → Bool) :
    ∀ {l : List Char} {c : Char}, (dropTrail p l).getLast? = some c → p c = false := by
  intro l
  induction l with
  | nil => intro c h; cases h
  | cons d rest ih =>
    intro c h
    rw [dropTrail] at h
    split_ifs at h with hd
    · cases h
    · rcases hkeep : dropTrail p rest with _ | ⟨e, t⟩
      · rw [hkeep] at h hd
        simp only [List.getLast?_singleton] at h
        simp only [List.isEmpty_nil, Bool.true_and] at hd
        injection h with h'
        subst h'
        exact Bool.eq_false_iff.mpr hd
      · rw [hkeep] at h
        rw [List.getLast?_cons_cons] at h
        exact ih (hkeep ▸ h)

/-- `dropWhile` fixes a list whose head fails the predicate. -/
theorem dropWhile_eq_self_of_head (p : Char → Bool) {l : List Char}
    (h : ∀ c, l.head? = some c → p c = false) : l.dropWhile p = l := by
  cases l with
  | nil => rfl
  | cons c rest =>
    rw [List.dropWhile_cons, if_neg]
    rw [h c rfl]
    simp

/-- `dropTrail` fixes a list whose last character fails the predicate. -/
theorem dropTrail_eq_self_of_last (p : Char → Bool) :
    ∀ {l : List Char}, (∀ c, l.getLast? = some c → p c = false) → dropTrail p l = l := by
  intro l
  induction l with
  | nil => intro _; rfl
  | cons c rest ih =>
    intro h
    cases rest with
    | nil =>
      rw [dropTrail]
      rw [show dropTrail p [] = [] from rfl]
      rw [h c (by simp)]
      simp
    | cons d t =>
      have ih' : dropTrail p (d :: t) = d :: t :=
        ih (fun e he => h e (by rw [List.getLast?_cons_cons]; exact he))
      rw [dropTrail, ih']
      simp

/-- `stripChars` fixes an already-stripped list. -/
theorem stripChars_eq_self {l : List Char}
    (hh : ∀ c, l.head? = some c → pyIsSpace c = false)
    (hl : ∀ c, l.getLast? = some c → pyIsSpace c = false) : stripChars l = l := by
  unfold stripChars
  rw [dropWhile_eq_self_of_head pyIsSpace hh, dropTrail_eq_self_of_last pyIsSpace hl]

/-- The head of a stripped list is not whitespace. -/
theorem stripChars_head_not {l : List Char} {c : Char}
    (h : (stripChars l).head? = some c) : pyIsSpace c = false := by
  unfold stripChars at h
  rcases dropTrail_head? pyIsSpace (l.dropWhile pyIsSpace) with hnil | hh
  · rw [hnil] at h; cases h
  · rw [hh] at h
    exact head_dropWhile_not pyIsSpace h

/-- The last character of a stripped list is not whitespace. -/
theorem stripChars_last_not {l : List Char} {c : Char}
    (h : (stripChars l).getLast? = some c) : pyIsSpace c = false :=
  dropTrail_last_not pyIsSpace h

/-- Every character of `cleanChars` output is allowed. -/
theorem mem_cleanChars {l : List Char} {c : Char} (h : c ∈ cleanChars l) :
    allowedChar c = true := by
  unfold cleanChars at h
  obtain ⟨d, _, hd⟩ := List.mem_map.mp h
  by_cases ha : allowedChar d = true
  · rw [if_pos ha] at hd; subst hd; exact ha
  · rw [if_neg ha] at hd; subst hd; decide

/-- Every character of `regexClean` output is allowed. -/
theorem mem_regexClean {l : List Char} {c : Char} (h : c ∈ regexClean l) :
    allowedChar c = true := by
  unfold regexClean stripChars at h
  have h1 := (dropTrail_sublist pyIsSpace _).subset h
  have h2 := (List.dropWhile_sublist pyIsSpace).subset h1
  exact mem_cleanChars (mem_squeeze h2)

/-- `regexClean` output has no adjacent spaces. -/
theorem noDbl_regexClean (l : List Char) : NoDbl (regexClean l) := by
  unfold regexClean stripChars
  exact noDbl_dropTrail pyIsSpace (noDbl_dropWhile pyIsSpace (noDbl_squeeze (cleanChars l)))

/-- `regexClean` output is a fixed point of the whole pipeline. -/
theorem regexClean_fixed (l : List Char) :
    (regexClean l).map pyLowerChar = regexClean l ∧
    stripChars (regexClean l) = regexClean l ∧
    regexClean (regexClean l) = regexClean l := by
  have hmem : ∀ c ∈ regexClean l, allowedChar c = true := fun c h => mem_regexClean h
  have hlower : (regexClean l).map pyLowerChar = regexClean l := by
    rw [List.map_congr_left (fun c hc => pyLowerChar_allowed (hmem c hc))]
    exact List.map_id _
  have hclean : cleanChars (regexClean l) = regexClean l := by
    unfold cleanChars
    rw [List.map_congr_left (fun c hc => if_pos (hmem c hc))]
    exact List.map_id _
  have hsq : squeeze (regexClean l) = regexClean l := squeeze_eq_self (noDbl_regexClean l)
  have hstrip : stripChars (regexClean l) = regexClean l := by
    apply stripChars_eq_self
    · intro c hc
      exact stripChars_head_not (l := squeeze (cleanChars l)) hc
    · intro c hc
      exact stripChars_last_not (l := squeeze (cleanChars l)) hc
  refine ⟨hlower, hstrip, ?_⟩
  show stripChars (squeeze (cleanChars (regexClean l))) = regexClean l
  rw [hclean, hsq, hstrip]

/-- The combined synonym lookup of `normalize`: target table first. -/
def synLookup (t : String) : Option String :=
  match lookupSyn TARGET_SYNONYMS t with
  | some v => some v
  | none => lookupSyn EFFECT_SYNONYMS t

/-- The outputs of `normalize` on which it is not idempotent: keys of
the synonym tables that the tables map elsewhere, and the four synonym
values that are not fixed points. -/
def badNormalizeOutputs : List String :=
  (((TARGET_SYNONYMS ++ EFFECT_SYNONYMS).map Prod.fst).filter
    (fun k => synLookup k ≠ some k)) ++
  ["AT1 receptor", "Na-K-2Cl cotransporter", "Na-Cl cotransporter", "H+/K+-ATPase"]

/-- Characterization of `normalize` away from the trivial-empty cases. -/
theorem normalize_eq (x : String) (hx : x ≠ "") (ht : lowerS (stripS x) ≠ "") :
    normalize x = match synLookup (lowerS (stripS x)) with
                  | some v => v
                  | none => String.mk (regexClean (lowerS (stripS x)).data) := by
  unfold normalize synLookup
  rw [if_neg hx, if_neg ht]
  cases lookupSyn TARGET_SYNONYMS (lowerS (stripS x)) with
  | none => cases lookupSyn EFFECT_SYNONYMS (lowerS (stripS x)) <;> rfl
  | some v => rfl

/-- A first-match lookup result is one of the stored values. -/
theorem lookupSyn_val_mem : ∀ (l : List (String × String)) (t v : String),
    lookupSyn l t = some v → v ∈ l.map Prod.snd := by
  intro l
  induction l with
  | nil => intro t v h; cases h
  | cons p rest ih =>
    intro t v h
    rw [lookupSyn] at h
    split_ifs at h with hk
    · injection h with h'
      subst h'
      exact List.mem_cons_self _ _
    · exact List.mem_cons_of_mem _ (ih t v h)

/-- A first-match lookup succeeds only on stored keys. -/
theorem lookupSyn_key_mem : ∀ (l : List (String × String)) (t v : String),
    lookupSyn l t = some v → t ∈ l.map Prod.fst := by
  intro l
  induction l with
  | nil => intro t v h; cases h
  | cons p rest ih =>
    intro t v h
    rw [lookupSyn] at h
    split_ifs at h with hk
    · subst hk
      exact List.mem_cons_self _ _
    · exact List.mem_cons_of_mem _ (ih t v h)

/-- A combined lookup result is a value of one of the two tables. -/
theorem synLookup_val_mem {t v : String} (h : synLookup t = some v) :
    v ∈ (TARGET_SYNONYMS ++ EFFECT_SYNONYMS).map Prod.snd := by
  unfold synLookup at h
  rw [List.map_append]
  cases ht : lookupSyn TARGET_SYNONYMS t with
  | some w =>
    rw [ht] at h
    injection h with h'
    exact List.mem_append_left _ (h' ▸ lookupSyn_val_mem _ t w ht)
  | none =>
    rw [ht] at h
    exact List.mem_append_right _ (lookupSyn_val_mem _ t v h)

/-- A combined lookup succeeds only on keys of the two tables. -/
theorem synLookup_key_mem {t v : String} (h : synLookup t = some v) :
    t ∈ (TARGET_SYNONYMS ++ EFFECT_SYNONYMS).map Prod.fst := by
  unfold synLookup at h
  rw [List.map_append]
  cases ht : lookupSyn TARGET_SYNONYMS t with
  | some w =>
    rw [ht] at h
    exact List.mem_append_left _ (lookupSyn_key_mem _ t w ht)
  | none =>
    rw [ht] at h
    exact List.mem_append_right _ (lookupSyn_key_mem _ t v h)

/-- C3 (amended): `normalize` is idempotent on every input whose
normalized form is outside the finite bad set — the synonym keys mapped
elsewhere by the tables and the four synonym values that lower-case or
punctuation-strip to something else. -/
theorem normalize_idempotent_outside_bad (x : String)
    (h : normalize x ∉ badNormalizeOutputs) :
    normalize (normalize x) = normalize x := by
  by_cases hx : x = ""
  · subst hx; rfl
  by_cases ht0 : lowerS (stripS x) = ""
  · have hnx : normalize x = "" := by
      unfold normalize
      rw [if_neg hx, if_pos ht0]
    rw [hnx]
    rfl
  rw [normalize_eq x hx ht0] at h ⊢
  cases hv : synLookup (lowerS (stripS x)) with
  | some v =>
    rw [hv] at h
    replace h : v ∉ badNormalizeOutputs := h
    show normalize v = v
    have hvmem := synLookup_val_mem hv
    have hfin : ∀ w ∈ (TARGET_SYNONYMS ++ EFFECT_SYNONYMS).map Prod.snd,
        w ∈ badNormalizeOutputs ∨ normalize w = w := by decide
    rcases hfin v hvmem with hbad | hfix
    · exact absurd hbad h
    · exact hfix
  | none =>
    rw [hv] at h
    replace h : String.mk (regexClean (lowerS (stripS x)).data) ∉ badNormalizeOutputs := h
    show normalize (String.mk (regexClean (lowerS (stripS x)).data))
      = String.mk (regexClean (lowerS (stripS x)).data)
    set m := regexClean (lowerS (stripS x)).data with hm
    by_cases hy0 : String.mk m = ""
    · rw [hy0]
      rfl
    have hfix := regexClean_fixed (lowerS (stripS x)).data
    rw [← hm] at hfix
    obtain ⟨hlower, hstrip, hre⟩ := hfix
    have hstripS : stripS (String.mk m) = String.mk m := by
      unfold stripS
      show String.mk (stripChars m) = String.mk m
      rw [hstrip]
    have hls : lowerS (stripS (String.mk m)) = String.mk m := by
      rw [hstripS]
      unfold lowerS
      show String.mk (m.map pyLowerChar) = String.mk m
      rw [hlower]
    rw [normalize_eq (String.mk m) hy0 (by rw [hls]; exact hy0)]
    rw [hls]
    cases hk : synLookup (String.mk m) with
    | none =>
      show String.mk (regexClean m) = String.mk m
      rw [hre]
    | some v =>
      have hkey := synLookup_key_mem hk
      have hnotbad : ¬ (String.mk m ∈
          ((TARGET_SYNONYMS ++ EFFECT_SYNONYMS).map Prod.fst).filter
            (fun k => synLookup k ≠ some k)) := by
        intro hmem
        exact h (List.mem_append_left _ hmem)
      have hself : synLookup (String.mk m) = some (String.mk m) := by
        by_contra hne
        exact hnotbad (List.mem_filter.mpr ⟨hkey, by simpa using hne⟩)
      rw [hk] at hself
      exact Option.some.inj hself

/-- Witness for the amended C3 on a concrete noisy input. -/
theorem normalize_idempotent_witness :
    normalize (normalize "  СЕРТРАЛИН 50 мг!  ") = normalize "  СЕРТРАЛИН 50 мг!  " :=
  normalize_idempotent_outside_bad _ (by decide)

/-- C3 counterexample: the synonym key "at1-рецептор" maps to
"AT1 receptor", which `normalize` sends to "at1 receptor", so
`normalize` is not idempotent and the substituted synonym value is not a
fixed point. -/
theorem normalize_not_idempotent_counterexample :
    normalize "at1-рецептор" = "AT1 receptor" ∧
    normalize (normalize "at1-рецептор") = "at1 receptor" ∧
    normalize (normalize "at1-рецептор") ≠ normalize "at1-рецептор" := by
  refine ⟨?_, ?_, ?_⟩ <;> decide

/-! ### Structure of the clinical rule overlay (C9) -/

/-- The five mechanism strings the CYP rule can produce. -/
def cypMechStrings : List String :=
  ["Shared CYP2D6 substrate + inhibitor", "Shared CYP3A4 substrate + inhibitor",
   "Shared CYP2C9 substrate + inhibitor", "Shared CYP2C19 substrate + inhibitor",
   "Shared CYP1A2 substrate + inhibitor"]

/-- C9 (amended): the clinical rules are independent and additive — each
adds its fixed amount to the indicated subscore category and appends its
comment when its condition holds — but the CYP inhibitor+substrate rule
also appends mechanism text: every rule-produced mechanism is one of the
five CYP lines and every CYP firing puts its line into the mechanism
list, while the other seven rules contribute to comments and subscores
only. -/
theorem clinical_rules_structure :
    (∀ (ae be : List (String × String)) (m : String),
       m ∈ (cypAdditions ae be).map Prod.fst → m ∈ cypMechStrings) ∧
    (∀ (fz : Matcher) (A B : DrugData) (pr : String × String),
       pr ∈ cypAdditions (ezent A) (ezent B) →
       pr.1 ∈ mechanismsBase fz A B ∧ pr.2 ∈ commentsOf fz A B) ∧
    (∀ (fz : Matcher) (A B : DrugData),
       (ssriAceiCond A B = true → "Риск гипонатриемии повышен" ∈ commentsOf fz A B) ∧
       (ssriBetaCond A B = true → "Повышение риска брадикардии" ∈ commentsOf fz A B) ∧
       (nsaidAceiCond A B = true → "Риск ухудшения функции почек" ∈ commentsOf fz A B) ∧
       (serotoninCond A B = true → "Риск серотонинового синдрома" ∈ commentsOf fz A B) ∧
       (hyperkCond A B = true → "Риск гиперкалиемии" ∈ commentsOf fz A B) ∧
       (bleedCond A B = true → "Повышенный риск кровотечения" ∈ commentsOf fz A B) ∧
       (qtCond A B = true → "Риск удлинения QT интервала" ∈ commentsOf fz A B)) ∧
    (∀ (fz : Matcher) (A B : DrugData),
       metabolicScore fz A B =
         ((sharedEnzymes fz A.metabolism B.metabolism).map (fun p => metabWeight p.1 p.2)).sum +
         ((cypAdditions (ezent A) (ezent B)).length : ℚ) * (1/4) ∧
       dynamicalScore fz A B =
         ((sharedTargets fz A.targets B.targets).map (fun p => targetWeight p.1 p.2)).sum +
         (if ssriBetaCond A B then 15/100 else 0) ∧
       toxicityScore fz A B =
         ((effectsOverlap fz A.effects B.effects).map (fun p => effectWeight p.1 p.2)).sum +
         (if ssriAceiCond A B then 15/100 else 0) +
         (if nsaidAceiCond A B then 1/5 else 0) +
         (if serotoninCond A B then 1/4 else 0) +
         (if hyperkCond A B then 1/5 else 0) +
         (if bleedCond A B then 1/5 else 0) +
         (if qtCond A B then 15/100 else 0)) := by
  have hcypmem : ∀ (ae be : List (String × String)) (pr : String × String),
      pr ∈ cypAdditions ae be → ∃ c ∈ majorCyps,
        pr = ("Shared " ++ upperS c ++ " substrate + inhibitor",
              "Взаимодействие через " ++ upperS c ++ " (ингибитор + субстрат)") := by
    intro ae be pr h
    unfold cypAdditions at h
    obtain ⟨l1, hl1, hpr1⟩ := List.mem_flatten.mp h
    obtain ⟨er, _, hl1e⟩ := List.mem_map.mp hl1
    subst hl1e
    obtain ⟨l2, hl2, hpr2⟩ := List.mem_flatten.mp hpr1
    obtain ⟨br, _, hl2e⟩ := List.mem_map.mp hl2
    subst hl2e
    obtain ⟨c, hc, hce⟩ := List.mem_map.mp hpr2
    exact ⟨c, List.mem_of_mem_filter hc, hce.symm⟩
  refine ⟨?_, ?_, ?_, ?_⟩
  · intro ae be m hm
    obtain ⟨pr, hpr, hpe⟩ := List.mem_map.mp hm
    obtain ⟨c, hc, hce⟩ := hcypmem ae be pr hpr
    subst hce
    subst hpe
    simp only [majorCyps, List.mem_cons, List.not_mem_nil, or_false] at hc
    rcases hc with rfl | rfl | rfl | rfl | rfl <;> decide
  · intro fz A B pr hpr
    constructor
    · unfold mechanismsBase
      exact List.mem_append_right _ (List.mem_map.mpr ⟨pr, hpr, rfl⟩)
    · unfold commentsOf
      exact List.mem_append_left _ (List.mem_append_left _ (List.mem_append_left _ (List.mem_append_left _ (List.mem_append_left _ (List.mem_append_left _ (List.mem_append_right _ (List.mem_map.mpr ⟨pr, hpr, rfl⟩)))))))
  · intro fz A B
    unfold commentsOf
    refine ⟨?_, ?_, ?_, ?_, ?_, ?_, ?_⟩ <;> intro hc
    · exact List.mem_append_left _ (List.mem_append_left _ (List.mem_append_left _ (List.mem_append_left _ (List.mem_append_left _ (List.mem_append_left _ (List.mem_append_left _ (List.mem_append_left _ (List.mem_append_left _ ((by rw [if_pos hc]; exact List.mem_singleton_self _))))))))))
    · exact List.mem_append_left _ (List.mem_append_left _ (List.mem_append_left _ (List.mem_append_left _ (List.mem_append_left _ (List.mem_append_left _ (List.mem_append_left _ (List.mem_append_left _ (List.mem_append_right _ ((by rw [if_pos hc]; exact List.mem_singleton_self _))))))))))
    · exact List.mem_append_left _ (List.mem_append_left _ (List.mem_append_left _ (List.mem_append_left _ (List.mem_append_left _ (List.mem_append_left _ (List.mem_append_left _ (List.mem_append_right _ ((by rw [if_pos hc]; exact List.mem_singleton_self _)))))))))
    · exact List.mem_append_left _ (List.mem_append_left _ (List.mem_append_left _ (List.mem_append_left _ (List.mem_append_left _ (List.mem_append_right _ ((by rw [if_pos hc]; exact List.mem_singleton_self _)))))))
    · exact List.mem_append_left _ (List.mem_append_left _ (List.mem_append_left _ (List.mem_append_left _ (List.mem_append_right _ ((by rw [if_pos hc]; exact List.mem_singleton_self _))))))
    · exact List.mem_append_left _ (List.mem_append_left _ (List.mem_append_left _ (List.mem_append_right _ ((by rw [if_pos hc]; exact List.mem_singleton_self _)))))
    · exact List.mem_append_left _ (List.mem_append_left _ (List.mem_append_right _ ((by rw [if_pos hc]; exact List.mem_singleton_self _))))
  · intro fz A B
    exact ⟨rfl, rfl, rfl⟩

/-! ### Score symmetry (C1) -/

/-- Non-empty normalized keys are pairwise distinct within one record
list. -/
abbrev KeysDistinct (key : α → String) (l : List α) : Prop :=
  List.Pairwise (fun x y => key x = key y → key x = "") l

/-- Under a close-match function returning no matches, the shared-pair
walk keeps exactly the exact dictionary hits. -/
theorem sharedPairs_noFuzzy (key : α → String) (fz : Matcher) (n : Nat) (cut : ℚ)
    (hfz : ∀ s l k c, fz s l k c = []) (la lb : List α) :
    sharedPairs key fz n cut la lb =
      la.filterMap (fun ra => if key ra = "" then none
        else (lastWithKey key lb (key ra)).map (fun rb => (ra, rb))) := by
  induction la with
  | nil => rfl
  | cons ra rest ih =>
    show ((ra :: rest).map (sharedPairOne key fz n cut lb)).flatten = _
    rw [List.map_cons, List.flatten_cons, List.filterMap_cons]
    by_cases h0 : key ra = ""
    · rw [if_pos h0, show sharedPairOne key fz n cut lb ra = [] from by
        unfold sharedPairOne; rw [if_pos h0], List.nil_append]
      exact ih
    · rw [if_neg h0]
      cases hlk : lastWithKey key lb (key ra) with
      | some rb =>
        rw [show sharedPairOne key fz n cut lb ra = [(ra, rb)] from by
          unfold sharedPairOne; rw [if_neg h0, hlk]]
        simp only [Option.map_some', List.singleton_append]
        exact congrArg (List.cons (ra, rb)) ih
      | none =>
        rw [show sharedPairOne key fz n cut lb ra = [] from by
          unfold sharedPairOne; rw [if_neg h0, hlk, hfz, List.filterMap_nil]]
        simp only [Option.map_none', List.nil_append]
        exact ih

/-- `KeysDistinct` survives list reversal. -/
theorem keysDistinct_reverse {key : α → String} {l : List α}
    (h : KeysDistinct key l) : KeysDistinct key l.reverse :=
  List.pairwise_reverse.mpr (h.imp (fun hxy he => he.trans (hxy he.symm)))

/-- In a list with distinct non-empty keys, summing the single matching
row equals reading the first `find?` hit. -/
theorem rowSum_find (key : α → String) (w : α → ℚ) (n : String) (hn : n ≠ "") :
    ∀ lr : List α, List.Pairwise (fun x y => key x = key y → key x = "") lr →
    (lr.map (fun rb => if n = key rb then w rb else 0)).sum =
      match lr.find? (fun r => key r == n) with
      | some rb => w rb
      | none => 0 := by
  intro lr
  induction lr with
  | nil => intro _; rfl
  | cons r rest ih =>
    intro hp
    rw [List.map_cons, List.sum_cons]
    by_cases hk : key r = n
    · rw [List.find?_cons_of_pos _ (by simp [hk]), if_pos hk.symm]
      have hzero : (rest.map (fun rb => if n = key rb then w rb else 0)).sum = 0 := by
        apply List.sum_eq_zero
        intro x hx
        obtain ⟨rb, hrb, rfl⟩ := List.mem_map.mp hx
        rw [if_neg]
        intro hkeq
        have hre : key r = "" := (List.pairwise_cons.mp hp).1 rb hrb (hk.trans hkeq)
        exact hn (hk.symm.trans hre)
      rw [hzero, add_zero]
    · rw [List.find?_cons_of_neg _ (by simp [hk]), if_neg (fun he => hk he.symm), zero_add]
      exact ih (List.pairwise_cons.mp hp).2

/-- The single matching row of a distinct-key list sums to the
dictionary entry (the last record with that key). -/
theorem rowSum_eq_last (key : α → String) (w : α → ℚ) (lb : List α) (n : String)
    (hn : n ≠ "") (hlb : KeysDistinct key lb) :
    (lb.map (fun rb => if n = key rb then w rb else 0)).sum =
      match lastWithKey key lb n with
      | some rb => w rb
      | none => 0 := by
  have h1 : (lb.map (fun rb => if n = key rb then w rb else 0)).sum
      = (lb.reverse.map (fun rb => if n = key rb then w rb else 0)).sum := by
    rw [List.map_reverse, List.sum_reverse]
  rw [h1]
  exact rowSum_find key w n hn lb.reverse (keysDistinct_reverse hlb)

/-- The exact double sum the shared-pair contributions amount to. -/
def dsum (w : α → α → ℚ) (key : α → String) (la lb : List α) : ℚ :=
  (la.map (fun ra => if key ra = "" then 0
     else (lb.map (fun rb => if key ra = key rb then w ra rb else 0)).sum)).sum

/-- Shared-pair contribution sums are the double sum over both record
lists, when the right-hand list has distinct non-empty keys and the
fuzzy fallback yields nothing. -/
theorem pairSum_eq_dsum (key : α → String) (w : α → α → ℚ) (fz : Matcher)
    (n : Nat) (cut : ℚ) (la lb : List α)
    (hfz : ∀ s l k c, fz s l k c = []) (hlb : KeysDistinct key lb) :
    ((sharedPairs key fz n cut la lb).map (fun p => w p.1 p.2)).sum = dsum w key la lb := by
  rw [sharedPairs_noFuzzy key fz n cut hfz la lb]
  unfold dsum
  induction la with
  | nil => rfl
  | cons ra rest ih =>
    rw [List.filterMap_cons, List.map_cons, List.sum_cons]
    by_cases h0 : key ra = ""
    · rw [if_pos h0, if_pos h0, zero_add]
      exact ih
    · rw [if_neg h0, if_neg h0,
        rowSum_eq_last key (fun rb => w ra rb) lb (key ra) h0 hlb]
      cases hlk : lastWithKey key lb (key ra) with
      | some rb =>
        rw [Option.map_some', List.map_cons, List.sum_cons, ih]
      | none =>
        rw [Option.map_none', zero_add]
        exact ih

/-- Sums of pointwise additions split. -/
theorem listSum_add {M : Type} [AddCommMonoid M] (g h : β → M) (l : List β) :
    (l.map (fun b => g b + h b)).sum = (l.map g).sum + (l.map h).sum := by
  induction l with
  | nil => simp
  | cons b rest ih =>
    rw [List.map_cons, List.sum_cons, ih, List.map_cons, List.sum_cons,
      List.map_cons, List.sum_cons, add_add_add_comm]

/-- Double sums over two lists commute. -/
theorem listSum_comm {M : Type} [AddCommMonoid M] (f : α → β → M)
    (la : List α) (lb : List β) :
    (la.map (fun a => (lb.map (f a)).sum)).sum
      = (lb.map (fun b => (la.map (fun a => f a b)).sum)).sum := by
  induction la with
  | nil =>
    symm
    apply List.sum_eq_zero
    intro x hx
    obtain ⟨b, _, rfl⟩ := List.mem_map.mp hx
    rfl
  | cons a rest ih =>
    rw [List.map_cons, List.sum_cons, ih,
      show lb.map (fun b => ((a :: rest).map (fun a' => f a' b)).sum)
          = lb.map (fun b => f a b + (rest.map (fun a' => f a' b)).sum) from
        List.map_congr_left (fun b _ => by rw [List.map_cons, List.sum_cons]),
      listSum_add]

/-- The double contribution sum is symmetric for a symmetric weight. -/
theorem dsum_comm (w : α → α → ℚ) (key : α → String)
    (hw : ∀ x y, w x y = w y x) (la lb : List α) :
    dsum w key la lb = dsum w key lb la := by
  unfold dsum
  have hrow : ∀ (l : List α) (ra : α),
      (if key ra = "" then 0
       else (l.map (fun rb => if key ra = key rb then w ra rb else 0)).sum)
      = (l.map (fun rb => if key ra = "" then 0
          else if key ra = key rb then w ra rb else 0)).sum := by
    intro l ra
    by_cases h0 : key ra = ""
    · rw [if_pos h0]
      symm
      apply List.sum_eq_zero
      intro x hx
      obtain ⟨rb, _, rfl⟩ := List.mem_map.mp hx
      rw [if_pos h0]
    · rw [if_neg h0]
      exact congrArg List.sum (List.map_congr_left (fun rb _ => by rw [if_neg h0]))
  rw [List.map_congr_left (fun ra (_ : ra ∈ la) => hrow lb ra),
    List.map_congr_left (fun rb (_ : rb ∈ lb) => hrow la rb), listSum_comm]
  apply congrArg List.sum
  apply List.map_congr_left
  intro b _
  apply congrArg List.sum
  apply List.map_congr_left
  intro a _
  by_cases h1 : key a = ""
  · rw [if_pos h1]
    by_cases h2 : key b = ""
    · rw [if_pos h2]
    · rw [if_neg h2, if_neg (fun he => h2 (he.trans h1))]
  · rw [if_neg h1]
    by_cases h2 : key b = ""
    · rw [if_pos h2, if_neg (fun he => h1 (he.trans h2))]
    · rw [if_neg h2]
      by_cases h3 : key a = key b
      · rw [if_pos h3, if_pos h3.symm]
        exact hw a b
      · rw [if_neg h3, if_neg (fun he => h3 he.symm)]

/-- The metabolic role table is symmetric in its two roles. -/
theorem metabW_core_comm (x y : String) :
    (if x = "ингибитор" ∧ y = "субстрат" then (1 : ℚ)/2
     else if y = "ингибитор" ∧ x = "субстрат" then 1/2
     else if x = "индуктор" ∧ y = "субстрат" then 1/4
     else if y = "индуктор" ∧ x = "субстрат" then 1/4
     else 3/20)
    = (if y = "ингибитор" ∧ x = "субстрат" then 1/2
       else if x = "ингибитор" ∧ y = "субстрат" then 1/2
       else if y = "индуктор" ∧ x = "субстрат" then 1/4
       else if x = "индуктор" ∧ y = "субстрат" then 1/4
       else 3/20) := by
  by_cases h1 : x = "ингибитор" ∧ y = "субстрат" <;>
    by_cases h2 : y = "ингибитор" ∧ x = "субстрат" <;>
    by_cases h3 : x = "индуктор" ∧ y = "субстрат" <;>
    by_cases h4 : y = "индуктор" ∧ x = "субстрат" <;>
    simp [h1, h2, h3, h4]

/-- Swapping the pair does not change the metabolic contribution. -/
theorem metabWeight_comm (ra rb : MetabRec) : metabWeight ra rb = metabWeight rb ra :=
  metabW_core_comm (roleLower ra.role) (roleLower rb.role)

/-- The dynamical role table is symmetric in its two roles. -/
theorem targetW_core_comm (x y : String) :
    (if x = "ингибитор" ∧ y = "ингибитор" then (2 : ℚ)/5
     else if x = "агонист" ∧ y = "агонист" then 7/20
     else if ((x = "агонист" ∨ x = "активатор") ∧ (y = "антагонист" ∨ y = "ингибитор")) ∨
             ((y = "агонист" ∨ y = "активатор") ∧ (x = "антагонист" ∨ x = "ингибитор")) then 3/10
     else 1/10)
    = (if y = "ингибитор" ∧ x = "ингибитор" then 2/5
       else if y = "агонист" ∧ x = "агонист" then 7/20
       else if ((y = "агонист" ∨ y = "активатор") ∧ (x = "антагонист" ∨ x = "ингибитор")) ∨
               ((x = "агонист" ∨ x = "активатор") ∧ (y = "антагонист" ∨ y = "ингибитор")) then 3/10
       else 1/10) := by
  by_cases h1 : x = "ингибитор" ∧ y = "ингибитор"
  · rw [if_pos h1,
      if_pos (show y = "ингибитор" ∧ x = "ингибитор" from ⟨h1.2, h1.1⟩)]
  · rw [if_neg h1,
      if_neg (show ¬(y = "ингибитор" ∧ x = "ингибитор") from fun h => h1 ⟨h.2, h.1⟩)]
    by_cases h2 : x = "агонист" ∧ y = "агонист"
    · rw [if_pos h2,
        if_pos (show y = "агонист" ∧ x = "агонист" from ⟨h2.2, h2.1⟩)]
    · rw [if_neg h2,
        if_neg (show ¬(y = "агонист" ∧ x = "агонист") from fun h => h2 ⟨h.2, h.1⟩)]
      by_cases h3 : ((x = "агонист" ∨ x = "активатор") ∧ (y = "антагонист" ∨ y = "ингибитор")) ∨
          ((y = "агонист" ∨ y = "активатор") ∧ (x = "антагонист" ∨ x = "ингибитор"))
      · rw [if_pos h3, if_pos h3.symm]
      · rw [if_neg h3, if_neg (fun h => h3 h.symm)]

/-- Swapping the pair does not change the dynamical contribution. -/
theorem targetWeight_comm (ta tb : TargetRec) : targetWeight ta tb = targetWeight tb ta :=
  targetW_core_comm (effTypeLower ta) (effTypeLower tb)

/-- Swapping the pair does not change the toxicity contribution. -/
theorem effectWeight_comm (ea eb : EffectRec) : effectWeight ea eb = effectWeight eb ea := by
  unfold effectWeight
  ring

/-- Boolean scaffold of the two-sided rule conditions. -/
theorem orand_comm (a b c d : Bool) : ((a && b) || (c && d)) = ((b && a) || (d && c)) := by
  cases a <;> cases b <;> cases c <;> cases d <;> rfl

/-- Boolean scaffold of the CYP condition. -/
theorem andand_or_comm (a b p q : Bool) : (a && b && (p || q)) = (b && a && (q || p)) := by
  cases a <;> cases b <;> cases p <;> cases q <;> rfl

/-- The eight rule conditions are symmetric in the two drugs. -/
theorem ruleConds_comm (A B : DrugData) :
    ssriAceiCond A B = ssriAceiCond B A ∧ ssriBetaCond A B = ssriBetaCond B A ∧
    nsaidAceiCond A B = nsaidAceiCond B A ∧ serotoninCond A B = serotoninCond B A ∧
    hyperkCond A B = hyperkCond B A ∧ bleedCond A B = bleedCond B A ∧
    qtCond A B = qtCond B A := by
  refine ⟨Bool.or_comm _ _, Bool.or_comm _ _, Bool.or_comm _ _, ?_,
    Bool.or_comm _ _, Bool.and_comm _ _, Bool.and_comm _ _⟩
  exact orand_comm _ _ _ _

/-- The CYP rule fires the same number of times in either order. -/
theorem cypAdditions_length_comm (ae be : List (String × String)) :
    (cypAdditions ae be).length = (cypAdditions be ae).length := by
  unfold cypAdditions
  simp only [List.length_flatten, List.map_map, Function.comp_def, List.length_map]
  rw [listSum_comm (fun er br => (majorCyps.filter (fun c =>
    strIn c er.1 && strIn c br.1 &&
    ((er.2 == "ингибитор" && br.2 == "субстрат") ||
     (br.2 == "ингибитор" && er.2 == "субстрат")))).length) ae be]
  apply congrArg List.sum
  apply List.map_congr_left
  intro br _
  apply congrArg List.sum
  apply List.map_congr_left
  intro er _
  apply congrArg List.length
  apply List.filter_congr
  intro c _
  exact andand_or_comm _ _ _ _

/-- The metabolic subscore is symmetric under the stated hypotheses. -/
theorem metabolicScore_comm (fz : Matcher) (A B : DrugData)
    (hfz : ∀ s l k c, fz s l k c = [])
    (hA : KeysDistinct enzKey A.metabolism) (hB : KeysDistinct enzKey B.metabolism) :
    metabolicScore fz A B = metabolicScore fz B A := by
  unfold metabolicScore sharedEnzymes
  rw [pairSum_eq_dsum enzKey metabWeight fz 1 (70/100) A.metabolism B.metabolism hfz hB,
    dsum_comm metabWeight enzKey metabWeight_comm,
    ← pairSum_eq_dsum enzKey metabWeight fz 1 (70/100) B.metabolism A.metabolism hfz hA]
  have h2 : ((cypAdditions (ezent A) (ezent B)).length : ℚ)
      = ((cypAdditions (ezent B) (ezent A)).length : ℚ) := by
    rw [cypAdditions_length_comm]
  rw [h2]

/-- The dynamical subscore is symmetric under the stated hypotheses. -/
theorem dynamicalScore_comm (fz : Matcher) (A B : DrugData)
    (hfz : ∀ s l k c, fz s l k c = [])
    (hA : KeysDistinct targetKey A.targets) (hB : KeysDistinct targetKey B.targets) :
    dynamicalScore fz A B = dynamicalScore fz B A := by
  unfold dynamicalScore sharedTargets
  rw [pairSum_eq_dsum targetKey targetWeight fz 2 (65/100) A.targets B.targets hfz hB,
    dsum_comm targetWeight targetKey targetWeight_comm,
    ← pairSum_eq_dsum targetKey targetWeight fz 2 (65/100) B.targets A.targets hfz hA,
    (ruleConds_comm A B).2.1]

/-- The toxicity subscore is symmetric under the stated hypotheses. -/
theorem toxicityScore_comm (fz : Matcher) (A B : DrugData)
    (hfz : ∀ s l k c, fz s l k c = [])
    (hA : KeysDistinct effectKey A.effects) (hB : KeysDistinct effectKey B.effects) :
    toxicityScore fz A B = toxicityScore fz B A := by
  obtain ⟨c1, _, c3, c4, c5, c6, c7⟩ := ruleConds_comm A B
  unfold toxicityScore effectsOverlap
  rw [pairSum_eq_dsum effectKey effectWeight fz 2 (75/100) A.effects B.effects hfz hB,
    dsum_comm effectWeight effectKey effectWeight_comm,
    ← pairSum_eq_dsum effectKey effectWeight fz 2 (75/100) B.effects A.effects hfz hA,
    c1, c3, c4, c5, c6, c7]

/-- C1 (amended): a fresh analysis has an order-independent numeric
score whenever the fuzzy fallback contributes nothing and each drug's
normalized enzyme, target and effect names are pairwise distinct;
without those provisos the score does depend on the argument order. -/
theorem score_symmetric_of_distinct_keys (fz : Matcher) (st : Store)
    (now now' : String) (a b : Int)
    (hfz : ∀ s l k c, fz s l k c = [])
    (da db : Drug) (hda : st.drugs a = some da) (hdb : st.drugs b = some db)
    (hat : KeysDistinct targetKey (st.pharm a).targets)
    (hbt : KeysDistinct targetKey (st.pharm b).targets)
    (ham : KeysDistinct enzKey (st.pharm a).metabolism)
    (hbm : KeysDistinct enzKey (st.pharm b).metabolism)
    (hae : KeysDistinct effectKey (st.pharm a).effects)
    (hbe : KeysDistinct effectKey (st.pharm b).effects) :
    resScore (analyzeInteraction fz st now a b false)
      = resScore (analyzeInteraction fz st now' b a false) := by
  obtain ⟨st1, h1⟩ := analyze_fresh_ok fz st now a b
    ⟨da, (st.pharm a).targets, (st.pharm a).metabolism, (st.pharm a).effects⟩
    ⟨db, (st.pharm b).targets, (st.pharm b).metabolism, (st.pharm b).effects⟩
    (by simp [loadDrugData, hda]) (by simp [loadDrugData, hdb])
  obtain ⟨st2, h2⟩ := analyze_fresh_ok fz st now' b a
    ⟨db, (st.pharm b).targets, (st.pharm b).metabolism, (st.pharm b).effects⟩
    ⟨da, (st.pharm a).targets, (st.pharm a).metabolism, (st.pharm a).effects⟩
    (by simp [loadDrugData, hdb]) (by simp [loadDrugData, hda])
  rw [h1, h2]
  show some (computeResult fz _ _ now).score = some (computeResult fz _ _ now').score
  have hraw : rawScore fz
      ⟨da, (st.pharm a).targets, (st.pharm a).metabolism, (st.pharm a).effects⟩
      ⟨db, (st.pharm b).targets, (st.pharm b).metabolism, (st.pharm b).effects⟩
      = rawScore fz
      ⟨db, (st.pharm b).targets, (st.pharm b).metabolism, (st.pharm b).effects⟩
      ⟨da, (st.pharm a).targets, (st.pharm a).metabolism, (st.pharm a).effects⟩ := by
    unfold rawScore
    rw [metabolicScore_comm fz _ _ hfz ham hbm, dynamicalScore_comm fz _ _ hfz hat hbt,
      toxicityScore_comm fz _ _ hfz hae hbe]
  show some (round3 (clampedScore fz _ _)) = some (round3 (clampedScore fz _ _))
  unfold clampedScore
  rw [hraw]

/-- Witness for the amended C1: two drugs sharing one distinctly-named
inhibited target score identically in both orders. -/
theorem score_symmetric_witness :
    resScore (analyzeInteraction noFz storeSym "t" 1 2 false)
      = resScore (analyzeInteraction noFz storeSym "u" 2 1 false) :=
  score_symmetric_of_distinct_keys noFz storeSym "t" "u" 1 2
    (fun _ _ _ _ => rfl) ⟨"аа"⟩ ⟨"бб"⟩ (by with_unfolding_all rfl)
    (by with_unfolding_all rfl) (by with_unfolding_all decide)
    (by with_unfolding_all decide) (by with_unfolding_all decide)
    (by with_unfolding_all decide) (by with_unfolding_all decide)
    (by with_unfolding_all decide)

/-- Witness for C9: the CYP rule firing on the `storeCyp` profiles puts
its mechanism line into the mechanism list and its comment into the
comment list, and a name-matched SSRI+ACEI pair gets the hyponatremia
comment. -/
theorem clinical_rules_structure_witness :
    ("Shared CYP3A4 substrate + inhibitor" ∈ cypMechStrings) ∧
    ("Shared CYP3A4 substrate + inhibitor" ∈ mechanismsBase noFz
       ⟨⟨"аа"⟩, [], [⟨"cyp3a4", some "ингибитор", 0⟩], []⟩
       ⟨⟨"бб"⟩, [], [⟨"cyp3a4", some "субстрат", 0⟩], []⟩ ∧
     "Взаимодействие через CYP3A4 (ингибитор + субстрат)" ∈ commentsOf noFz
       ⟨⟨"аа"⟩, [], [⟨"cyp3a4", some "ингибитор", 0⟩], []⟩
       ⟨⟨"бб"⟩, [], [⟨"cyp3a4", some "субстрат", 0⟩], []⟩) ∧
    ("Риск гипонатриемии повышен" ∈ commentsOf noFz
       ⟨⟨"Сертралин"⟩, [], [], []⟩ ⟨⟨"Эналаприл"⟩, [], [], []⟩) := by
  refine ⟨?_, ?_, ?_⟩
  · apply clinical_rules_structure.1 [("cyp3a4", "ингибитор")] [("cyp3a4", "субстрат")]
    decide
  · exact clinical_rules_structure.2.1 noFz _ _
      ("Shared CYP3A4 substrate + inhibitor",
       "Взаимодействие через CYP3A4 (ингибитор + субстрат)") (by decide)
  · exact (clinical_rules_structure.2.2.1 noFz _ _).1 (by decide)

end Kurs
